import Mathlib

/-!
Verification development for the pisap/pysap MRI reconstruction code
(`pisap/numerics/gradient.py` and
`pysap/plugins/mri/parallel_mri_online/proximity.py`).

Conventions of the shallow embedding:
* numpy arrays of real scalars are modelled over `ℚ` (exact arithmetic in
  place of IEEE floats); complex scalars are modelled as pairs `ℚ × ℚ`
  with explicit complex multiplication and conjugation;
* an n-dimensional array is a flat row-major list together with its shape
  (`NDA` below); `np.reshape` is partial (it fails exactly when the
  element count does not match the requested shape, as in numpy);
* code that raises a Python exception is modelled in `Except PyErr` or
  `Option` (where `none` stands for a raised exception);
* external collaborators that are not part of this repository
  (numpy's `svd` and `norm`, sklearn's `isotonic_regression`, the patch
  extraction utilities, modopt's `SparseThreshold`, the wavelet adapter's
  reshape helpers) are taken as parameters, or modelled from the spec
  where a definition is required; such definitions carry a
  `Modelled from the spec:` doc comment;
* in `ℚ`, division by zero yields `0` while numpy produces `inf`/`nan`
  with a warning; no theorem below depends on a division-by-zero path
  except where explicitly commented.
-/

/-- The kinds of Python exceptions that the modelled code can raise. -/
inductive PyErr where
  | valueError
  | nameError
  | typeError
  | attributeError
  | indexError
  | unboundLocalError
  | numpyError
  | fuelExhausted
deriving DecidableEq

/-- Decidable equality of modelled Python results. -/
instance {e a : Type} [DecidableEq e] [DecidableEq a] : DecidableEq (Except e a) := fun x y =>
  match x, y with
  | .error u, .error v =>
    if h : u = v then isTrue (by rw [h]) else isFalse (by intro hc; cases hc; exact h rfl)
  | .error _, .ok _ => isFalse (by intro hc; cases hc)
  | .ok _, .error _ => isFalse (by intro hc; cases hc)
  | .ok u, .ok v =>
    if h : u = v then isTrue (by rw [h]) else isFalse (by intro hc; cases hc; exact h rfl)

/-- `np.finfo(np.float32).eps = 2^(-23)`, used as division guard. -/
def eps32 : ℚ := 1 / 8388608

/-- `data / np.abs(data)` for one entry, as in `OWL._prox_owl`.
In numpy a zero entry produces `nan` (0/0); in `ℚ` division by zero
yields `0`, so a zero entry maps to `0` here. No theorem below relies on
the value at zero entries beyond this convention. -/
def pySign (x : ℚ) : ℚ := x / |x|

/-- Map with the element index, starting at `i0`. -/
def mapIdxFrom (f : ℕ → ℚ → ℚ) : ℕ → List ℚ → List ℚ
  | _, [] => []
  | i, x :: xs => f i x :: mapIdxFrom f (i + 1) xs

/-- Fuelled chunking of a flat list into rows of width `k`
(row-major inverse of `List.flatten`). -/
def chunkF (k : ℕ) : ℕ → List ℚ → List (List ℚ)
  | 0, _ => []
  | _ + 1, [] => []
  | fuel + 1, l => l.take k :: chunkF k fuel (l.drop k)

/-- Split a flat list into rows of width `k`. -/
def chunk (k : ℕ) (l : List ℚ) : List (List ℚ) := chunkF k l.length l

/-- Matrices as row lists. -/
abbrev Mat := List (List ℚ)

/-- Row-major flattening of a matrix. -/
def matFlat (m : Mat) : List ℚ := m.flatten

/-- Column `j` of a matrix (missing entries read as `0`). -/
def matCol (m : Mat) (j : ℕ) : List ℚ := m.map (fun row => row.getD j 0)

/-- Dot product (truncating, like `np.dot` on equal-length vectors). -/
def dotQ (a b : List ℚ) : ℚ := (List.zipWith (· * ·) a b).sum

/-- Matrix product `A·B` (`np.dot`). -/
def matMul (a b : Mat) : Mat :=
  a.map (fun row => (List.range (b.headD []).length).map (fun j => dotQ row (matCol b j)))

/-- `u * s` with `s` broadcast along rows (numpy `u * s` for a singular
value vector `s`): scales column `j` of `u` by `s j`. -/
def colScale (u : Mat) (s : List ℚ) : Mat :=
  u.map (fun row => List.zipWith (· * ·) row s)

/-- A numpy ndarray: shape plus row-major flat data. -/
structure NDA where
  shape : List ℕ
  flat : List ℚ
deriving DecidableEq

/-- `np.reshape`: succeeds iff the element count matches the new shape
(row-major data is unchanged). -/
def reshapeNDA (a : NDA) (sh : List ℕ) : Option NDA :=
  if a.flat.length = sh.prod then some ⟨sh, a.flat⟩ else none

/-- Element `(c, i, j)` of a 3-dimensional array (out of range reads 0). -/
def get3 (a : NDA) (c i j : ℕ) : ℚ :=
  match a.shape with
  | [_, h, w] => a.flat.getD (c * (h * w) + i * w + j) 0
  | _ => 0

/-- `np.moveaxis(a, 0, -1)` on a 3-d array `[c, h, w] → [h, w, c]`.
Other ranks are not reached on the modelled call paths and are returned
unchanged. -/
def mv0Last (a : NDA) : NDA :=
  match a.shape with
  | [c, h, w] =>
    ⟨[h, w, c],
      (List.range h).flatMap (fun i =>
        (List.range w).flatMap (fun j =>
          (List.range c).map (fun ch => get3 a ch i j)))⟩
  | _ => a

/-- `np.moveaxis(a, -1, 0)`: transposes a 2-d array `[r, c] → [c, r]` and
rotates a 3-d array `[h, w, c] → [c, h, w]`.  Other ranks are not reached
on the modelled call paths and are returned unchanged. -/
def mvLast0 (a : NDA) : NDA :=
  match a.shape with
  | [r, c] =>
    ⟨[c, r],
      (List.range c).flatMap (fun j =>
        (List.range r).map (fun i => a.flat.getD (i * c + j) 0))⟩
  | [h, w, c] =>
    ⟨[c, h, w],
      (List.range c).flatMap (fun ch =>
        (List.range h).flatMap (fun i =>
          (List.range w).map (fun j => a.flat.getD (i * (w * c) + j * c + ch) 0)))⟩
  | _ => a

/-- Complex scalars as pairs (re, im). -/
abbrev Cq := ℚ × ℚ

/-- Complex multiplication on `Cq`. -/
def cmul (a b : Cq) : Cq := (a.1 * b.1 - a.2 * b.2, a.1 * b.2 + a.2 * b.1)

/-- Complex conjugation on `Cq`. -/
def conjq (a : Cq) : Cq := (a.1, -a.2)

/-! ## `pisap/numerics/gradient.py` -/

/-- State of a `GradBase` object: the forward/adjoint chain `MX`/`MtX`
(abstract, as in the abstract base class), the observed data `y`, and the
`grad` attribute written by `get_grad`. -/
structure GradBaseSt (V W : Type) where
  MX : V → W
  MtX : W → V
  y : W
  grad : V

/-- `GradBase.get_grad`: `self.grad = self.MtX(self.MX(x) - self.y)`. -/
def GradBase.get_grad {V W : Type} [Sub W] (st : GradBaseSt V W) (x : V) : GradBaseSt V W :=
  { st with grad := st.MtX (st.MX x - st.y) }

/-- `GradBase.MtMX`: `self.MtX(self.MX(x))`. -/
def GradBase.MtMX {V W : Type} (MX : V → W) (MtX : W → V) (x : V) : V := MtX (MX x)

/-- The loop of `GradBase.get_spec_rad`:
`for i in xrange(max_iter): x_new = MtMX(x_old)/norm(x_old);
 if |norm(x_new) - norm(x_old)| < tolerance: break; x_old = x_new`,
returning the final `x_new`.  With `max_iter = 0` the body never runs and
the subsequent read of `x_new` raises `NameError` in Python, modelled as
`none`.  `generic_l2_norm` lives outside the provided sources
(`pisap/base/utils.py`); it is the parameter `N` here, and `sdiv` is the
numpy array-by-scalar division. -/
def specRadLoop {V : Type} (f : V → V) (N : V → ℚ) (sdiv : V → ℚ → V)
    (tol : ℚ) : ℕ → V → Option V
  | 0, _ => none
  | 1, xold => some (sdiv (f xold) (N xold))
  | m + 2, xold =>
    let xnew := sdiv (f xold) (N xold)
    if |N xnew - N xold| < tol then some xnew
    else specRadLoop f N sdiv tol (m + 1) xnew

/-- `GradBase.get_spec_rad(tolerance, max_iter, coef_mul)`: runs the power
iteration loop and returns `(spec_rad, inv_spec_rad)` with
`spec_rad = coef_mul * norm(x_new)` and `inv_spec_rad = 1/spec_rad`. -/
def GradBase.get_spec_rad {V W : Type} (MX : V → W) (MtX : W → V)
    (N : V → ℚ) (sdiv : V → ℚ → V) (x0 : V)
    (tol : ℚ) (maxIter : ℕ) (coefMul : ℚ) : Option (ℚ × ℚ) :=
  (specRadLoop (GradBase.MtMX MX MtX) N sdiv tol maxIter x0).map
    (fun xf => (coefMul * N xf, 1 / (coefMul * N xf)))

/-- The power-iteration sequence as described by the spec: `x₀` is the
initial vector and `x_{k+1} = MtMX(x_k) / ‖x_k‖`. -/
def powerSeq {V : Type} (f : V → V) (N : V → ℚ) (sdiv : V → ℚ → V) (x0 : V) : ℕ → V
  | 0 => x0
  | k + 1 => sdiv (f (powerSeq f N sdiv x0 k)) (N (powerSeq f N sdiv x0 k))

/-- Stopping test of the claim as stated: the RELATIVE change of the L2
norm between consecutive iterates falls below the tolerance. -/
def relStop {V : Type} (f : V → V) (N : V → ℚ) (sdiv : V → ℚ → V) (x0 : V)
    (tol : ℚ) (k : ℕ) : Bool :=
  |N (powerSeq f N sdiv x0 (k + 1)) - N (powerSeq f N sdiv x0 k)|
    / N (powerSeq f N sdiv x0 k) < tol

/-- Stopping test actually implemented: the ABSOLUTE difference of the L2
norms of consecutive iterates falls below the tolerance. -/
def absStop {V : Type} (f : V → V) (N : V → ℚ) (sdiv : V → ℚ → V) (x0 : V)
    (tol : ℚ) (k : ℕ) : Bool :=
  |N (powerSeq f N sdiv x0 (k + 1)) - N (powerSeq f N sdiv x0 k)| < tol

/-- The algorithm described by the claim, parameterized by the stopping
test: the final iterate is `x_{K+1}` where `K` is the first index below
`maxIter - 1` passing the stopping test (a break in the last loop pass
does not change the result), else `maxIter - 1`; the result is
`(coef_mul·‖x_{K+1}‖, 1/(coef_mul·‖x_{K+1}‖))`. -/
def specRadDescribed {V : Type} (stop : ℚ → ℕ → Bool)
    (f : V → V) (N : V → ℚ) (sdiv : V → ℚ → V) (x0 : V)
    (tol : ℚ) (maxIter : ℕ) (coefMul : ℚ) : Option (ℚ × ℚ) :=
  if maxIter = 0 then none
  else
    let K := ((List.range (maxIter - 1)).find? (stop tol)).getD (maxIter - 1)
    let r := coefMul * N (powerSeq f N sdiv x0 (K + 1))
    some (r, 1 / r)

/-- The claim's algorithm with the relative-change stopping rule. -/
def specRadDescribedRel {V : Type} (f : V → V) (N : V → ℚ) (sdiv : V → ℚ → V)
    (x0 : V) (tol : ℚ) (maxIter : ℕ) (coefMul : ℚ) : Option (ℚ × ℚ) :=
  specRadDescribed (fun t k => relStop f N sdiv x0 t k) f N sdiv x0 tol maxIter coefMul

/-- The claim's algorithm with the absolute-difference stopping rule. -/
def specRadDescribedAbs {V : Type} (f : V → V) (N : V → ℚ) (sdiv : V → ℚ → V)
    (x0 : V) (tol : ℚ) (maxIter : ℕ) (coefMul : ℚ) : Option (ℚ × ℚ) :=
  specRadDescribed (fun t k => absStop f N sdiv x0 t k) f N sdiv x0 tol maxIter coefMul

/-- `Grad2DSynthese_Pmri.MX` (as written at lines 339-360 of
`gradient.py`, reading only `self` state and the coefficient argument):
`mask * fft2(smap * linear_operator.adj_op(alpha))`, one frequency plane
per channel.  Note the class itself cannot load in Python (see the C1
analysis); this is the translation of the method body's formula. -/
def Grad2DSynthese_Pmri.MX {ι κ σ : Type} {L : ℕ}
    (smap : Fin L → ι → Cq) (mask : κ → Cq)
    (fft : (ι → Cq) → κ → Cq) (wadj : (σ → Cq) → ι → Cq)
    (alpha : σ → Cq) : Fin L → κ → Cq :=
  fun l kk => cmul (mask kk) (fft (fun i => cmul (smap l i) (wadj alpha i)) kk)

/-- `Grad2DSynthese_Pmri.MtX`:
`linear_operator.op(smap.conjugate() * ifft2(mask * coeffs))`, applied per
channel (the wavelet adapter maps over the channel axis). -/
def Grad2DSynthese_Pmri.MtX {ι κ σ : Type} {L : ℕ}
    (smap : Fin L → ι → Cq) (mask : κ → Cq)
    (ifft : (κ → Cq) → ι → Cq) (wop : (ι → Cq) → σ → Cq)
    (d : Fin L → κ → Cq) : Fin L → σ → Cq :=
  fun l => wop (fun i => cmul (conjq (smap l i)) (ifft (fun kk => cmul (mask kk) (d l kk)) i))

/-- `Grad2DSynthese_Pmri.get_grad` (line 428):
`self.grad = np.sum(self.MtX(self.MX(x) - self.y), axis=0)`. -/
def Grad2DSynthese_Pmri.get_grad {ι κ σ : Type} {L : ℕ} [Fintype σ]
    (smap : Fin L → ι → Cq) (mask : κ → Cq)
    (fft : (ι → Cq) → κ → Cq) (ifft : (κ → Cq) → ι → Cq)
    (wop : (ι → Cq) → σ → Cq) (wadj : (σ → Cq) → ι → Cq)
    (y : Fin L → κ → Cq) (x : σ → Cq) : σ → Cq :=
  Finset.univ.sum (fun l =>
    Grad2DSynthese_Pmri.MtX smap mask ifft wop
      (fun l2 kk => Grad2DSynthese_Pmri.MX smap mask fft wadj x l2 kk - y l2 kk) l)

/-- The claim's per-channel forward operator `M_l`. -/
def pmriChanM {ι κ σ : Type} {L : ℕ}
    (smap : Fin L → ι → Cq) (mask : κ → Cq)
    (fft : (ι → Cq) → κ → Cq) (wadj : (σ → Cq) → ι → Cq)
    (l : Fin L) (x : σ → Cq) : κ → Cq :=
  fun kk => cmul (mask kk) (fft (fun i => cmul (smap l i) (wadj x i)) kk)

/-- The claim's per-channel adjoint operator `Mᵗ_l`. -/
def pmriChanMt {ι κ σ : Type} {L : ℕ}
    (smap : Fin L → ι → Cq) (mask : κ → Cq)
    (ifft : (κ → Cq) → ι → Cq) (wop : (ι → Cq) → σ → Cq)
    (l : Fin L) (d : κ → Cq) : σ → Cq :=
  wop (fun i => cmul (conjq (smap l i)) (ifft (fun kk => cmul (mask kk) (d kk)) i))

/-- `Grad2DAnalysis.__init__` / `Grad2DSynthesis.__init__` receive either
a Fourier-operator instance or a mapping from a Fourier-operator class to
its constructor parameters. -/
inductive FtArg (P F : Type) where
  | cls (f : F)
  | dict (entries : List ((P → F) × P))

/-- The `ft_cls` resolution step of `Grad2DAnalysis.__init__`
(lines 164-170): a mapping with more than one key raises `ValueError`;
a single-key mapping instantiates the key's class with the mapped
parameters (`ft_cls.keys()[0](**ft_cls.values()[0])`); an empty mapping
raises `IndexError` at the subscript. -/
def Grad2DAnalysis.resolveFt {P F : Type} : FtArg P F → Except PyErr F
  | .cls f => .ok f
  | .dict es =>
    if es.length > 1 then .error .valueError
    else
      match es with
      | [] => .error .indexError
      | (mk, p) :: _ => .ok (mk p)

/-- The `ft_cls` resolution step of `Grad2DSynthesis.__init__`
(lines 234-240).  The multi-key branch executes `raise valueerror(...)`
with a lowercase, undefined name, so Python raises `NameError` instead of
the intended `ValueError`. -/
def Grad2DSynthesis.resolveFt {P F : Type} : FtArg P F → Except PyErr F
  | .cls f => .ok f
  | .dict es =>
    if es.length > 1 then .error .nameError
    else
      match es with
      | [] => .error .indexError
      | (mk, p) :: _ => .ok (mk p)

/-! ## `pysap/plugins/mri/parallel_mri_online/proximity.py` -/

/-- `GroupLasso.op(data, extra_factor)`:
`data * np.maximum(0, 1 - weights*extra_factor / np.maximum(norm_2, eps_f32))`
where `norm_2 = np.linalg.norm(data, axis=0)` (per-column L2 norm).
`np.linalg.norm` is external numpy; the per-column norms are the
parameter `norm2` (the theorems below hold for every value of it).  The
source also computes and discards an unused `np.maximum(...)` expression
(lines 244-246), a pure no-op omitted here. -/
def GroupLasso.op (weights : ℚ) (norm2 : ℕ → ℚ) (data : List (List ℚ))
    (extra_factor : ℚ) : List (List ℚ) :=
  data.map (mapIdxFrom
    (fun j x => x * max 0 (1 - weights * extra_factor / max (norm2 j) eps32)) 0)

/-- Modelled from the spec: modopt's `SparseThreshold` (external library)
applies "standard elementwise soft-thresholding by `weights·extra_factor`":
`sign(x) · max(|x| - t, 0)`. -/
def softThresh (t x : ℚ) : ℚ :=
  (if x < 0 then -1 else if 0 < x then 1 else 0) * max (|x| - t) 0

/-- `SparseThreshold.op` over a 2-d array (modelled from the spec, the
implementation lives in the external modopt library). -/
def SparseThreshold.op (weights : ℚ) (data : List (List ℚ)) (extra_factor : ℚ) :
    List (List ℚ) :=
  data.map (fun row => row.map (softThresh (weights * extra_factor)))

/-- `SparseGroupLasso.op(data, extra_factor)`: the group-lasso operator
applied to the soft-thresholded data, both with the same `extra_factor`.
`norm2` stands for the per-column norms of the intermediate array. -/
def SparseGroupLasso.op (weights_l1 weights_l2 : ℚ) (norm2 : ℕ → ℚ)
    (data : List (List ℚ)) (extra_factor : ℚ) : List (List ℚ) :=
  GroupLasso.op weights_l2 norm2 (SparseThreshold.op weights_l1 data extra_factor)
    extra_factor

/-- Pool-adjacent-violators merge step: push a new pool `(sum, count)`
onto the stack (head = most recent pool), merging while the new pool's
mean is below the mean of the pool underneath. -/
def pavMerge : List (ℚ × ℕ) → ℚ × ℕ → List (ℚ × ℕ)
  | [], p => [p]
  | (s, c) :: rest, (s2, c2) =>
    if s2 * c < s * c2 then pavMerge rest (s + s2, c + c2)
    else (s2, c2) :: (s, c) :: rest

/-- Pools of the increasing isotonic regression of a list. -/
def pavPools (l : List ℚ) : List (ℚ × ℕ) :=
  l.foldl (fun st v => pavMerge st (v, 1)) []

/-- Expand pools back into a value list (each pool contributes its mean,
repeated). -/
def pavExpand (ps : List (ℚ × ℕ)) : List ℚ :=
  ps.reverse.flatMap (fun p => List.replicate p.2 (p.1 / (p.2 : ℚ)))

/-- Increasing (non-decreasing) L2 isotonic regression. -/
def pavInc (l : List ℚ) : List ℚ := pavExpand (pavPools l)

/-- Modelled from the spec: sklearn's
`isotonic_regression(y, y_min=0, increasing=False)` (external library) —
"project on the monotone non-negative decreasing cone": the decreasing
fit is the reversed increasing fit of the reversed data, clipped below at
`y_min = 0`. -/
def isotonicDec0 (l : List ℚ) : List ℚ :=
  ((pavInc l.reverse).reverse).map (fun x => max x 0)

/-- `np.argsort(np.abs(data))[::-1]`: the index list sorting `l` by
non-increasing value.  numpy's default quicksort leaves the order of ties
unspecified; this model uses a stable sort with ties kept in index
order. -/
def argsortDesc (l : List ℚ) : List ℕ :=
  (List.range l.length).mergeSort (fun i j => decide (l.getD j 0 ≤ l.getD i 0))

/-- `OWL._prox_owl(data, threshold)`: sort `|data|` in decreasing order,
subtract the threshold vector, project onto the monotone non-negative
non-increasing cone, undo the sort, and reapply `data/|data|`. -/
def OWL._prox_owl (data threshold : List ℚ) : List ℚ :=
  let dabs := data.map (fun x => |x|)
  let ix := argsortDesc dabs
  let sorted := ix.map (fun i => dabs.getD i 0)
  let proj := isotonicDec0 (List.zipWith (fun a b => a - b) sorted threshold)
  (List.range data.length).map
    (fun i => pySign (data.getD i 0) * proj.getD (ix.findIdx (fun j => j == i)) 0)

/-- The weights attribute of an `OWL` object: `alpha` may be a scalar or a
weight vector; in `band_based` mode it is a list of per-band vectors. -/
inductive OWLWeights where
  | scalar (a : ℚ)
  | vec (w : List ℚ)
  | perBand (ws : List (List ℚ))
deriving DecidableEq

/-- The `data_shape` argument of `OWL.__init__`: an element count in
`all`/`coeff_based` mode, a list of band shapes in `band_based` mode. -/
inductive OWLDataShape where
  | count (n : ℕ)
  | bands (bs : List (List ℕ))
deriving DecidableEq

/-- State of an `OWL` object.  `band_shape` is only assigned on the
OSCAR `band_based` construction path; reading it when unset raises
`AttributeError` (modelled by `none`). -/
structure OWLSt where
  mode : String
  weights : OWLWeights
  band_shape : Option (List (List ℕ))
deriving DecidableEq

/-- `OWL.__init__(alpha, beta, data_shape, mode, n_channel)`.
With `beta = None` the weights are `alpha` unchanged and — notably — the
mode is never validated.  With `beta` supplied (OSCAR), a missing
`data_shape` raises, and the mode dispatch builds `_oscar_weights`
(external `utils.py`, the parameter `osc` here) per mode; an unknown mode
raises.  Both `raise('...')` statements raise a plain string, which in
Python 2.6+ is itself a `TypeError`; `TypeError` is used for them here.
A non-scalar `alpha` on the OSCAR paths is outside the modelled claims
and reads as `0`. -/
def OWL.init (osc : ℚ → ℚ → ℕ → List ℚ) (alpha : OWLWeights) (beta : Option ℚ)
    (data_shape : Option OWLDataShape) (mode : String) (n_channel : ℕ) :
    Except PyErr OWLSt :=
  match beta with
  | none => .ok ⟨mode, alpha, none⟩
  | some b =>
    match data_shape with
    | none => .error .typeError
    | some ds =>
      let a := match alpha with | .scalar a => a | _ => 0
      if mode = "all" then
        match ds with
        | .count n => .ok ⟨mode, .vec (osc a b (n * n_channel)), none⟩
        | .bands _ => .error .typeError
      else if mode = "band_based" then
        match ds with
        | .count _ => .error .typeError
        | .bands bs =>
          .ok ⟨mode, .perBand (bs.map (fun bsh => osc a b (n_channel * bsh.prod))), some bs⟩
      else if mode = "coeff_based" then
        .ok ⟨mode, .vec (osc a b n_channel), none⟩
      else .error .typeError

/-- The threshold `self.weights * extra_factor` for a vector of length
`n` (a scalar weight broadcasts, numpy-style). -/
def owlThreshold (w : OWLWeights) (ef : ℚ) (n : ℕ) : List ℚ :=
  match w with
  | .scalar a => List.replicate n (a * ef)
  | .vec l => l.map (· * ef)
  | .perBand _ => []

/-- Flat row-major slice of columns `[s, e)` of a 2-d array, as produced
by `np.reshape(data[:, s:e], n_channel*(e-s))`. -/
def colBlockFlat (a : NDA) (s e : ℕ) : List ℚ :=
  let rows := a.shape.getD 0 0
  let cols := a.shape.getD 1 0
  (List.range rows).flatMap (fun i => ((a.flat.drop (i * cols + s)).take (e - s)))

/-- Write a row-major `rows × width` block back into columns `[s, s+width)`
of a flat 2-d array (`output[:, s:stop] = np.reshape(block, ...)`). -/
def writeColBlock (out : List ℚ) (cols s width : ℕ) (blk : List ℚ) : List ℚ :=
  (List.range out.length).map (fun pos =>
    let i := pos / cols
    let j := pos % cols
    if s ≤ j ∧ j < s + width then blk.getD (i * width + (j - s)) 0
    else out.getD pos 0)

/-- One band of the `band_based` loop of `OWL.op`: slice the band's
columns, flatten, apply `_prox_owl`, and write the block back. -/
def owlBandStep (data : NDA) (ef : ℚ) :
    (ℕ × List ℚ) → (List ℕ × List ℚ) → ℕ × List ℚ
  | (start, out), (band_shape, w) =>
    let k := band_shape.prod
    let blk := colBlockFlat data start (start + k)
    let proxed := OWL._prox_owl blk (w.map (· * ef))
    (start + k, writeColBlock out (data.shape.getD 1 0) start k proxed)

/-- Column `idx` of a 2-d array (`np.squeeze(data[:, idx])`). -/
def colOf (a : NDA) (idx : ℕ) : List ℚ :=
  let cols := a.shape.getD 1 0
  (List.range (a.shape.getD 0 0)).map (fun i => a.flat.getD (i * cols + idx) 0)

/-- `OWL.op(data, extra_factor)`: dispatch on the mode.
`all` flattens the data and returns the (1-d) proximal image;
`band_based` processes per-band column blocks into a zero-initialised
output (reading `self.band_shape`, which may be unset); `coeff_based`
processes each column with the shared weight vector.  An unrecognised
mode falls through all branches and `return output` raises
`UnboundLocalError`. -/
def OWL.op (st : OWLSt) (data : NDA) (ef : ℚ) : Except PyErr NDA :=
  if st.mode = "all" then
    let t := owlThreshold st.weights ef data.flat.length
    .ok ⟨[data.flat.length], OWL._prox_owl data.flat t⟩
  else if st.mode = "band_based" then
    match st.band_shape, st.weights with
    | none, _ => .error .attributeError
    | some bs, .perBand ws =>
      let out0 := List.replicate data.flat.length (0 : ℚ)
      let res := (bs.zip ws).foldl (owlBandStep data ef) (0, out0)
      .ok ⟨data.shape, res.2⟩
    | some _, _ => .error .typeError
  else if st.mode = "coeff_based" then
    let rows := data.shape.getD 0 0
    let cols := data.shape.getD 1 0
    let out := (List.range cols).foldl (fun acc idx =>
      let proxed := OWL._prox_owl (colOf data idx) (owlThreshold st.weights ef rows)
      writeColBlock acc cols idx 1 proxed) (List.replicate data.flat.length (0 : ℚ))
    .ok ⟨data.shape, out⟩
  else .error .unboundLocalError

/-- Sequence a list of optional results; `none` as soon as one entry is
`none` (a raised exception aborts the patch loop). -/
def mapOpt {α β : Type} (f : α → Option β) : List α → Option (List β)
  | [] => some []
  | a :: t =>
    match f a, mapOpt f t with
    | some b, some bs => some (b :: bs)
    | _, _ => none

/-- Reshape a flat row-major list into an array of the given shape
(`np.reshape`): fails unless the element count matches. -/
def reshapeFlat (l : List ℚ) (sh : List ℕ) : Option NDA :=
  if l.length = sh.prod then some ⟨sh, l⟩ else none

/-- An SVD oracle: numpy's `np.linalg.svd(m, full_matrices=False)`
is external; it is a parameter returning `(u, s, vh)`. -/
abbrev SvdFn := Mat → Mat × List ℚ × Mat

/-- State of a `NuclearNorm` object. -/
structure NNState where
  weights : ℚ
  patch_shape : List ℕ
  overlapping_factor : ℕ
deriving DecidableEq

/-- `NuclearNorm._prox_nuclear_norm(patch, threshold)`:
reshape the patch to `(np.prod(patch_shape[:-1]), patch.shape[-1])`,
shrink the singular values by `max(1 - threshold/max(eps_f32, |s|), 0)`,
recompose `np.dot(u*s, vh)` and reshape back to the patch's shape.
Note the row count uses `patch_shape[:-1]`, dropping the last entry of
the configured patch shape. -/
def NuclearNorm._prox_nuclear_norm (svd : SvdFn) (ps : List ℕ) (patch : NDA)
    (threshold : ℚ) : Option NDA :=
  let rows := (ps.dropLast).prod
  let cols := patch.shape.getLastD 0
  match reshapeFlat patch.flat [rows, cols] with
  | none => none
  | some m2 =>
    let usv := svd (chunk cols m2.flat)
    let s2 := usv.2.1.map (fun si => si * max (1 - threshold / max eps32 |si|) 0)
    reshapeFlat (matFlat (matMul (colScale usv.1 s2) usv.2.2)) patch.shape

/-- `NuclearNorm._nuclear_norm_cost(patch)`: the sum of the absolute
singular values of the same reshaped patch matrix. -/
def NuclearNorm._nuclear_norm_cost (svd : SvdFn) (ps : List ℕ) (patch : NDA) :
    Option ℚ :=
  let rows := (ps.dropLast).prod
  let cols := patch.shape.getLastD 0
  match reshapeFlat patch.flat [rows, cols] with
  | none => none
  | some m2 => some (((svd (chunk cols m2.flat)).2.1.map (fun x => |x|)).sum)

/-- `NuclearNorm.op(data, extra_factor)` with its three branches:
1. `data.shape[1:] == patch_shape`: the whole array is treated as one
   patch — `moveaxis(data, 0, -1)` is reshaped to
   `(np.prod(patch_shape), data.shape[0])`, `_prox_nuclear_norm` is
   applied and the result is `moveaxis`-ed back;
2. `overlapping_factor == 1`: patches are extracted
   (`extract_patches_2d`, external `utils.py`, parameter `extract`),
   each is proximal-mapped, and
   `reconstruct_non_overlapped_patches_2d` (parameter `reconNO`)
   restitches them (this branch returns the reconstruction directly);
3. otherwise: overlapped extraction with
   `extraction_step_size = patch_shape // overlapping_factor`, then
   `reconstruct_overlapped_patches_2d` (parameter `reconOV`) and a final
   `moveaxis` back. -/
def NuclearNorm.op (svd : SvdFn)
    (extract : NDA → List ℕ → ℕ → List NDA)
    (reconNO : List NDA → List ℕ → NDA)
    (reconOV : List ℕ → List NDA → List ℕ → NDA)
    (st : NNState) (data : NDA) (extra_factor : ℚ) : Option NDA :=
  let threshold := st.weights * extra_factor
  if data.shape.drop 1 = st.patch_shape then
    match reshapeNDA (mv0Last data) [st.patch_shape.prod, data.shape.getD 0 0] with
    | none => none
    | some m =>
      match NuclearNorm._prox_nuclear_norm svd st.patch_shape m threshold with
      | none => none
      | some images => some (mvLast0 images)
  else if st.overlapping_factor = 1 then
    match mapOpt (fun p => NuclearNorm._prox_nuclear_norm svd st.patch_shape p threshold)
        (extract (mv0Last data) st.patch_shape st.overlapping_factor) with
    | none => none
    | some P2 => some (reconNO P2 (data.shape.drop 1))
  else
    let step := st.patch_shape.map (fun d => d / st.overlapping_factor)
    match mapOpt (fun p => NuclearNorm._prox_nuclear_norm svd st.patch_shape p threshold)
        (extract (mv0Last data) st.patch_shape st.overlapping_factor) with
    | none => none
    | some P2 => some (mvLast0 (reconOV (mv0Last data).shape P2 step))

/-- `NuclearNorm.get_cost(data, extra_factor)`: the summed nuclear norms
of the patches, scaled by `weights * extra_factor`, with the same three
branches as `op`. -/
def NuclearNorm.get_cost (svd : SvdFn)
    (extract : NDA → List ℕ → ℕ → List NDA)
    (st : NNState) (data : NDA) (extra_factor : ℚ) : Option ℚ :=
  let threshold := st.weights * extra_factor
  if data.shape.drop 1 = st.patch_shape then
    match reshapeNDA (mv0Last data) [st.patch_shape.prod, data.shape.getD 0 0] with
    | none => none
    | some m =>
      match NuclearNorm._nuclear_norm_cost svd st.patch_shape m with
      | none => none
      | some c => some (c * threshold)
  else
    match mapOpt (fun p => NuclearNorm._nuclear_norm_cost svd st.patch_shape p)
        (extract (mv0Last data) st.patch_shape st.overlapping_factor) with
    | none => none
    | some cs => some (cs.sum * threshold)

/-- The `weights` argument of `MultiLevelNuclearNorm.__init__`: a Python
scalar or a per-scale list. -/
inductive MLWeightsArg where
  | scalar (w : ℚ)
  | list (ws : List ℚ)
deriving DecidableEq

/-- The `patch_shape` argument of `MultiLevelNuclearNorm.__init__`: a
single shape tuple or a per-scale list of shape tuples. -/
inductive MLPatchArg where
  | single (ps : List ℕ)
  | list (pss : List (List ℕ))
deriving DecidableEq

/-- State of a `MultiLevelNuclearNorm` object.  `patch_shape` is the
parent `NuclearNorm` attribute; Python's dynamic typing lets
`__init__` store either a shape tuple or (when a single tuple was
subscripted) a bare integer in it, hence the sum type. -/
structure MLState where
  _weights : List ℚ
  _patch_shape : List (List ℕ)
  weights : ℚ
  patch_shape : (List ℕ) ⊕ ℕ
  overlapping_factor : ℕ
deriving DecidableEq

/-- `MultiLevelNuclearNorm.__init__(weights, patch_shape, linear_op,
overlapping_factor)`: two lists must have equal lengths (else
`ValueError`); a single value is broadcast over the other list's length,
or over `linear_op.transform.nb_band_per_scale` (`nb_band` here) when
neither is a list.  The method ends with
`NuclearNorm.__init__(self, weights[0], patch_shape[0], ...)`, which
subscripts the ORIGINAL arguments: a scalar `weights` raises `TypeError`
there, and a single `patch_shape` tuple contributes its first component
(an integer) as the parent `patch_shape`. -/
def MultiLevelNuclearNorm.init (nb_band : ℕ) (weights : MLWeightsArg)
    (patch_shape : MLPatchArg) (ov : ℕ) : Except PyErr MLState :=
  let stage : Except PyErr (List ℚ × List (List ℕ)) :=
    match weights, patch_shape with
    | .list ws, .list pss =>
      if ws.length ≠ pss.length then .error .valueError
      else .ok (ws, pss)
    | .list ws, .single ps => .ok (ws, List.replicate ws.length ps)
    | .scalar w, .list pss => .ok (List.replicate pss.length w, pss)
    | .scalar w, .single ps => .ok (List.replicate nb_band w, List.replicate nb_band ps)
  match stage with
  | .error e => .error e
  | .ok (ws, pss) =>
    match weights with
    | .scalar _ => .error .typeError
    | .list wl =>
      match wl with
      | [] => .error .indexError
      | w0 :: _ =>
        match patch_shape with
        | .list pl =>
          match pl with
          | [] => .error .indexError
          | p0 :: _ => .ok ⟨ws, pss, w0, Sum.inl p0, ov⟩
        | .single ps =>
          match ps with
          | [] => .error .indexError
          | n0 :: _ => .ok ⟨ws, pss, w0, Sum.inr n0, ov⟩

/-- The wavelet adapter functions used by `MultiLevelNuclearNorm`
(`linear.py` of the plugin, outside the provided sources):
`reshape_coeff_channel` regroups stacked multichannel coefficients into
per-band arrays, `reshape_channel_coeff` regroups them back into
per-channel coefficient objects, and `flatten` returns a flat array plus
a shape manifest. -/
structure MLLinear (σ μ : Type) where
  reshape_coeff_channel : NDA → List NDA
  reshape_channel_coeff : List NDA → List σ
  flatten : σ → List ℚ × μ

/-- One pass of the per-band loop of `MultiLevelNuclearNorm.op`:
`self.weights = weights; self.patch_shape = patch_shape;
 prox_coeffs.append(super().op(...))`.  The attribute assignments happen
before the call, so a failing band still leaves the fields overwritten;
after a failure the remaining bands are not processed. -/
def mlBandStep (svd : SvdFn)
    (extract : NDA → List ℕ → ℕ → List NDA)
    (reconNO : List NDA → List ℕ → NDA)
    (reconOV : List ℕ → List NDA → List ℕ → NDA)
    (ov : ℕ) (ef : ℚ) :
    MLState × Except PyErr (List NDA) → NDA × (ℚ × List ℕ) →
      MLState × Except PyErr (List NDA)
  | (st, .error e), _ => (st, .error e)
  | (st, .ok outs), (band, wi, psi) =>
    let st2 := { st with weights := wi, patch_shape := Sum.inl psi }
    match NuclearNorm.op svd extract reconNO reconOV ⟨wi, psi, ov⟩ band ef with
    | none => (st2, .error .numpyError)
    | some r => (st2, .ok (outs ++ [r]))

/-- `MultiLevelNuclearNorm.op(wavelet_coeffs, extra_factor)`: regroup the
coefficients per band, run the per-band loop (which overwrites
`self.weights` / `self.patch_shape` at every scale; the band list is
zipped against the per-scale lists, truncating like Python's `zip`),
then regroup per channel, flatten each, and stack (`np.asarray`). -/
def MultiLevelNuclearNorm.op {σ μ : Type} (svd : SvdFn)
    (extract : NDA → List ℕ → ℕ → List NDA)
    (reconNO : List NDA → List ℕ → NDA)
    (reconOV : List ℕ → List NDA → List ℕ → NDA)
    (lop : MLLinear σ μ) (st : MLState) (wav : NDA) (ef : ℚ) :
    MLState × Except PyErr NDA :=
  let bands := lop.reshape_coeff_channel wav
  let trip := bands.zip (st._weights.zip st._patch_shape)
  let res := trip.foldl (mlBandStep svd extract reconNO reconOV st.overlapping_factor ef)
    (st, .ok [])
  match res.2 with
  | .error e => (res.1, .error e)
  | .ok outs =>
    let rs := (lop.reshape_channel_coeff outs).map (fun c => (lop.flatten c).1)
    (res.1, .ok ⟨[rs.length, (rs.headD []).length], rs.flatten⟩)

/-- One pass of the per-band loop of `MultiLevelNuclearNorm.get_cost`,
with the same attribute overwrites as `op`. -/
def mlCostStep (svd : SvdFn)
    (extract : NDA → List ℕ → ℕ → List NDA)
    (ov : ℕ) (ef : ℚ) :
    MLState × Except PyErr ℚ → NDA × (ℚ × List ℕ) → MLState × Except PyErr ℚ
  | (st, .error e), _ => (st, .error e)
  | (st, .ok c), (band, wi, psi) =>
    let st2 := { st with weights := wi, patch_shape := Sum.inl psi }
    match NuclearNorm.get_cost svd extract ⟨wi, psi, ov⟩ band ef with
    | none => (st2, .error .numpyError)
    | some ci => (st2, .ok (c + ci))

/-- `MultiLevelNuclearNorm.get_cost(wavelet_coeffs, extra_factor)`. -/
def MultiLevelNuclearNorm.get_cost {σ μ : Type} (svd : SvdFn)
    (extract : NDA → List ℕ → ℕ → List NDA)
    (lop : MLLinear σ μ) (st : MLState) (wav : NDA) (ef : ℚ) :
    MLState × Except PyErr ℚ :=
  let bands := lop.reshape_coeff_channel wav
  let trip := bands.zip (st._weights.zip st._patch_shape)
  trip.foldl (mlCostStep svd extract st.overlapping_factor ef) (st, .ok 0)

/-- State of a `k_support_norm` object: `__init__(k, lmbda)` stores
`self.weights = lmbda; self.k = k` — the attribute `self.lmbda`, read by
every method, is never assigned (`none` here, so that reading it raises
`AttributeError`). -/
structure KSupportSt where
  k : ℤ
  weights : ℚ
  lmbda : Option ℚ
deriving DecidableEq

/-- `k_support_norm.__init__(k, lmbda)`. -/
def k_support_norm.init (k : ℤ) (lmbda : ℚ) : KSupportSt := ⟨k, lmbda, none⟩

/-- Python list slice `xs[a:b]` with possibly negative bounds. -/
def pySlice (xs : List ℚ) (a b : ℤ) : List ℚ :=
  let n : ℤ := xs.length
  let normIx : ℤ → ℕ := fun e => (if e < 0 then max 0 (n + e) else min e n).toNat
  (xs.take (normIx b)).drop (normIx a)

/-- Python scalar index `xs[i]` with negative wrapping and
`IndexError` out of range. -/
def pyIdx (xs : List ℚ) (i : ℤ) : Except PyErr ℚ :=
  let n : ℤ := xs.length
  if 0 ≤ i ∧ i < n then .ok (xs.getD i.toNat 0)
  else if -n ≤ i ∧ i < 0 then .ok (xs.getD (n + i).toNat 0)
  else .error .indexError

/-- `np.sort(np.abs(w))[::-1]` on the absolute values already taken. -/
def sortDescQ (l : List ℚ) : List ℚ :=
  l.mergeSort (fun a b => decide (b ≤ a))

/-- The `while` loop of `k_support_norm._find_alpha`.  The loop's
termination is unresolved in the source (see spec §9), so it is modelled
with explicit fuel (`fuelExhausted` stands for a non-terminating run —
never reached by the claims, which fail earlier).  Each arm computes its
two ratios (possibly raising `IndexError`) and then compares them against
`self.lmbda`, an attribute that `__init__` never sets, raising
`AttributeError` at that point.  In numpy, a ratio with an empty-slice
denominator is `inf` with a warning; in `ℚ` it reads `0` — no claim
depends on the loop beyond the `AttributeError`. -/
def findAlphaLoop (kk : ℤ) (lam : Option ℚ) (ds : List ℚ) :
    ℕ → ℤ → ℤ → ℕ → Bool → Bool → ℚ → Except PyErr (ℚ × ℤ × ℤ)
  | 0, _, _, _, _, _, _ => .error .fuelExhausted
  | fuel + 1, q, l, idx, tq, tl, alpha =>
    let n : ℤ := ds.length
    if ¬((q < n - 1 ∧ 0 < l) ∨ ¬(tq = true ∧ tl = true)) then .ok (alpha, q, l)
    else if idx % 2 = 0 then
      if tq then
        if tq = true ∧ tl = true then
          .ok ((((kk - q : ℤ) : ℚ)) / (pySlice ds (q + 1) l).sum, q, l)
        else findAlphaLoop kk lam ds fuel q l (idx + 1) tq tl alpha
      else
        match pyIdx ds q, pyIdx ds (q + 1) with
        | .ok dq, .ok dq1 =>
          let r_q_0 := (((kk - q : ℤ) : ℚ)) * dq / (pySlice ds (q + 1) l).sum
          let r_q_1 := (((kk - (q + 1) : ℤ) : ℚ)) * dq1 / (pySlice ds (q + 2) l).sum
          match lam with
          | none => .error .attributeError
          | some lam0 =>
            let tq2 := decide (r_q_0 > lam0 + 1) && decide (r_q_1 < lam0 + 1)
            if tq2 = true ∧ tl = true then
              .ok ((((kk - (q + 1) : ℤ) : ℚ)) / (pySlice ds (q + 2) l).sum, q + 1, l)
            else findAlphaLoop kk lam ds fuel (q + 1) l (idx + 1) tq2 tl alpha
        | .error e, _ => .error e
        | _, .error e => .error e
    else
      if tl then
        if tq = true ∧ tl = true then
          .ok ((((kk - q : ℤ) : ℚ)) / (pySlice ds (q + 1) l).sum, q, l)
        else findAlphaLoop kk lam ds fuel q l (idx + 1) tq tl alpha
      else
        match pyIdx ds l, pyIdx ds (l + 1) with
        | .ok dl, .ok dl1 =>
          let r_l_0 := (((kk - q : ℤ) : ℚ)) * dl / (pySlice ds (q + 1) l).sum
          let r_l_1 := (((kk - q : ℤ) : ℚ)) * dl1 / (pySlice ds (q + 1) l).sum
          match lam with
          | none => .error .attributeError
          | some lam0 =>
            let tl2 := decide (r_l_0 > lam0) && decide (r_l_1 < lam0)
            if tq = true ∧ tl2 = true then
              .ok ((((kk - q : ℤ) : ℚ)) / (pySlice ds (q + 1) (l - 1)).sum, q, l - 1)
            else findAlphaLoop kk lam ds fuel q (l - 1) (idx + 1) tq tl2 alpha
        | .error e, _ => .error e
        | _, .error e => .error e

/-- `k_support_norm._find_alpha(w)` with the default arguments
`q = 0`, `l = w.shape[0] - 2`. -/
def k_support_norm._find_alpha (st : KSupportSt) (w : List ℚ) :
    Except PyErr (ℚ × ℤ × ℤ) :=
  let ds := sortDescQ (w.map (fun x => |x|))
  findAlphaLoop st.k st.lmbda ds (4 * w.length + 8) 0 ((w.length : ℤ) - 2) 0
    false false 0

/-- `k_support_norm._calc_theta(w, alpha)`: `1` above the upper ratio
band, `alpha*|w|` inside `[lmbda, lmbda+1]`, `0` below — reading the
never-assigned `self.lmbda`. -/
def k_support_norm._calc_theta (st : KSupportSt) (w : List ℚ) (alpha : ℚ) :
    Except PyErr (List ℚ) :=
  match st.lmbda with
  | none => .error .attributeError
  | some lam =>
    .ok (w.map (fun wi =>
      (if alpha * |wi| > lam + 1 then (1 : ℚ) else 0) +
      (alpha * |wi|) * (if alpha * |wi| ≤ lam + 1 ∧ lam ≤ alpha * |wi| then 1 else 0)))

/-- `k_support_norm.op(data, extra_factor)`: note that `extra_factor` is
accepted but never used by the source, and every path reads the
never-assigned `self.lmbda`. -/
def k_support_norm.op (st : KSupportSt) (data : List ℚ) (extra_factor : ℚ) :
    Except PyErr (List ℚ) :=
  match k_support_norm._find_alpha st (data.map (fun x => |x|)) with
  | .error e => .error e
  | .ok (alpha, _, _) =>
    match k_support_norm._calc_theta st (data.map (fun x => |x|)) alpha with
    | .error e => .error e
    | .ok theta =>
      match st.lmbda with
      | none => .error .attributeError
      | some lam => .ok (List.zipWith (fun d th => d * th / (th + lam)) data theta)

/-- The property stated by claim C5, formalised verbatim: the output of
`_prox_owl`, re-sorted by descending magnitude, (i) is non-increasing,
(ii) is entrywise bounded by the input's sorted magnitudes minus the
threshold, floored at zero, and (iii) every output entry carries the sign
of the corresponding input entry. -/
def owlClaimC5 (data w : List ℚ) : Prop :=
  (∀ k, k < data.length - 1 →
    (sortDescQ ((OWL._prox_owl data w).map (fun x => |x|))).getD (k + 1) 0 ≤
      (sortDescQ ((OWL._prox_owl data w).map (fun x => |x|))).getD k 0) ∧
  (∀ k, k < data.length →
    (sortDescQ ((OWL._prox_owl data w).map (fun x => |x|))).getD k 0 ≤
      max ((sortDescQ (data.map (fun x => |x|))).getD k 0 - w.getD k 0) 0) ∧
  (∀ i, i < data.length →
    (OWL._prox_owl data w).getD i 0 =
      pySign (data.getD i 0) * |(OWL._prox_owl data w).getD i 0|)

/-! ## Helper lemmas -/

theorem getD_map_range {α : Type} (f : ℕ → α) {n i : ℕ} (h : i < n) (d : α) :
    ((List.range n).map f).getD i d = f i := by
  rw [List.getD_eq_getElem?_getD, List.getElem?_map, List.getElem?_range h]
  rfl

theorem map_range_getD (l : List ℚ) :
    (List.range l.length).map (fun i => l.getD i 0) = l := by
  induction l with
  | nil => rfl
  | cons a t ih =>
    rw [List.length_cons, List.range_succ_eq_map, List.map_cons, List.map_map]
    have h2 : ((fun i => (a :: t).getD i 0) ∘ Nat.succ) = fun i => t.getD i 0 := by
      funext i
      simp [List.getD_cons_succ]
    rw [h2, ih]
    rfl

theorem getD_mem_nonneg (l : List ℚ) (h : ∀ x ∈ l, 0 ≤ x) (k : ℕ) : 0 ≤ l.getD k 0 := by
  by_cases hk : k < l.length
  · have hmem : l.getD k 0 ∈ l := by
      rw [List.getD_eq_getElem?_getD, List.getElem?_eq_getElem hk]
      exact List.getElem_mem hk
    exact h _ hmem
  · rw [List.getD_eq_default _ _ (le_of_not_lt hk)]

theorem pySign_mul_abs (x : ℚ) : pySign x * |x| = x := by
  unfold pySign
  rcases eq_or_ne x 0 with h | h
  · simp [h]
  · rw [div_mul_cancel₀ _ (abs_ne_zero.mpr h)]

theorem chunkF_flatten {k : ℕ} (hk : 0 < k) :
    ∀ (fuel : ℕ) (l : List ℚ), l.length ≤ fuel → (chunkF k fuel l).flatten = l := by
  intro fuel
  induction fuel with
  | zero =>
    intro l hl
    have : l = [] := List.eq_nil_of_length_eq_zero (Nat.le_zero.mp hl)
    subst this
    rfl
  | succ n ih =>
    intro l hl
    match l with
    | [] => rfl
    | x :: t =>
      have hstep : chunkF k (n + 1) (x :: t) =
          (x :: t).take k :: chunkF k n ((x :: t).drop k) := by
        rfl
      rw [hstep, List.flatten_cons]
      have hdrop : ((x :: t).drop k).length ≤ n := by
        rw [List.length_drop]
        have : (x :: t).length ≤ n + 1 := hl
        omega
      rw [ih _ hdrop, List.take_append_drop]

theorem chunk_flatten {k : ℕ} (hk : 0 < k) (l : List ℚ) : (chunk k l).flatten = l :=
  chunkF_flatten hk l.length l le_rfl

theorem prod_dropLast_getLast (ps : List ℕ) (h : ps ≠ []) :
    ps.dropLast.prod * ps.getLastD 0 = ps.prod := by
  conv_rhs => rw [← List.dropLast_append_getLast h]
  rw [List.prod_append, List.getLastD_eq_getLast?, List.getLast?_eq_getLast _ h]
  simp

theorem mapIdxFrom_id (f : ℕ → ℚ → ℚ) (hf : ∀ j x, f j x = x) :
    ∀ (i : ℕ) (l : List ℚ), mapIdxFrom f i l = l := by
  intro i l
  induction l generalizing i with
  | nil => rfl
  | cons a t ih => rw [mapIdxFrom, hf, ih]

theorem softThresh_zero (x : ℚ) : softThresh 0 x = x := by
  unfold softThresh
  rcases lt_trichotomy x 0 with h | h | h
  · rw [if_pos h, sub_zero, max_eq_left (abs_nonneg x), abs_of_neg h]
    ring
  · simp [h]
  · rw [if_neg (not_lt.mpr h.le), if_pos h, sub_zero, max_eq_left (abs_nonneg x),
      abs_of_pos h, one_mul]

theorem pavMerge_push (rest : List (ℚ × ℕ)) (b a : ℚ) (hba : b ≤ a) :
    pavMerge ((b, 1) :: rest) (a, 1) = (a, 1) :: (b, 1) :: rest := by
  unfold pavMerge
  rw [if_neg]
  simp only [Nat.cast_one, mul_one]
  exact not_lt.mpr hba

theorem pavPools_sorted (l : List ℚ) (h : List.Sorted (· ≤ ·) l) :
    pavPools l = (l.map (fun x => (x, (1 : ℕ)))).reverse := by
  induction l using List.reverseRecOn with
  | nil => rfl
  | append_singleton t a ih =>
    have hparts := List.pairwise_append.mp h
    have hsort : List.Sorted (· ≤ ·) t := hparts.1
    have hrel : ∀ x ∈ t, x ≤ a := fun x hx =>
      hparts.2.2 x hx a (List.mem_singleton_self a)
    have hfold : pavPools (t ++ [a]) = pavMerge (pavPools t) (a, 1) := by
      unfold pavPools
      rw [List.foldl_append]
      rfl
    rw [hfold, ih hsort]
    cases t using List.reverseRecOn with
    | nil => rfl
    | append_singleton t2 b _ =>
      have hba : b ≤ a := hrel b (by simp)
      have h1 : ((t2 ++ [b]).map (fun x => (x, (1 : ℕ)))).reverse
          = (b, 1) :: (t2.map (fun x => (x, (1 : ℕ)))).reverse := by
        simp
      rw [h1, pavMerge_push _ _ _ hba, ← h1]
      simp

theorem pavInc_fix (l : List ℚ) (h : List.Sorted (· ≤ ·) l) : pavInc l = l := by
  unfold pavInc pavExpand
  rw [pavPools_sorted l h, List.reverse_reverse]
  induction l with
  | nil => rfl
  | cons a t ih =>
    rw [List.map_cons, List.flatMap_cons, ih (List.Sorted.of_cons h)]
    simp [List.replicate, div_one]

theorem isotonicDec0_fix (l : List ℚ) (h : List.Sorted (· ≥ ·) l)
    (h0 : ∀ x ∈ l, 0 ≤ x) : isotonicDec0 l = l := by
  unfold isotonicDec0
  have hrev : List.Sorted (· ≤ ·) l.reverse := by
    rw [List.Sorted, List.pairwise_reverse]
    exact h
  rw [pavInc_fix _ hrev, List.reverse_reverse]
  have : ∀ x ∈ l, max x 0 = x := fun x hx => max_eq_left (h0 x hx)
  calc l.map (fun x => max x 0) = l.map id := List.map_congr_left fun x hx => this x hx
    _ = l := List.map_id l

theorem isotonicDec0_nonneg (l : List ℚ) : ∀ x ∈ isotonicDec0 l, 0 ≤ x := by
  intro x hx
  unfold isotonicDec0 at hx
  obtain ⟨y, _, rfl⟩ := List.mem_map.mp hx
  exact le_max_right _ _

theorem argsortDesc_perm (l : List ℚ) :
    (argsortDesc l).Perm (List.range l.length) :=
  List.mergeSort_perm _ _

theorem argsortDesc_mem (l : List ℚ) {i : ℕ} (h : i < l.length) : i ∈ argsortDesc l :=
  ((argsortDesc_perm l).mem_iff).mpr (List.mem_range.mpr h)

theorem argsortDesc_length (l : List ℚ) : (argsortDesc l).length = l.length := by
  unfold argsortDesc
  rw [List.length_mergeSort, List.length_range]

theorem argsortDesc_sorted (l : List ℚ) :
    List.Pairwise (fun i j => l.getD j 0 ≤ l.getD i 0) (argsortDesc l) := by
  have htrans : ∀ a b c : ℕ, (decide (l.getD b 0 ≤ l.getD a 0)) = true →
      (decide (l.getD c 0 ≤ l.getD b 0)) = true →
      (decide (l.getD c 0 ≤ l.getD a 0)) = true := by
    intro a b c h1 h2
    rw [decide_eq_true_eq] at *
    exact le_trans h2 h1
  have htotal : ∀ a b : ℕ, ((decide (l.getD b 0 ≤ l.getD a 0)) ||
      (decide (l.getD a 0 ≤ l.getD b 0))) = true := by
    intro a b
    rcases le_total (l.getD b 0) (l.getD a 0) with h | h
    · rw [decide_eq_true h, Bool.true_or]
    · rw [decide_eq_true h, Bool.or_true]
  have := List.sorted_mergeSort htrans htotal (List.range l.length)
  exact this.imp fun h => of_decide_eq_true h

theorem unsort_getD (f : ℕ → ℚ) (i : ℕ) :
    ∀ (ixl : List ℕ), i ∈ ixl →
      (ixl.map f).getD (ixl.findIdx (fun j => j == i)) 0 = f i := by
  intro ixl
  induction ixl with
  | nil => intro h; cases h
  | cons a t ih =>
    intro h
    rw [List.findIdx_cons]
    by_cases ha : a = i
    · subst ha
      simp
    · have hb : (a == i) = false := beq_eq_false_iff_ne.mpr ha
      rw [hb]
      simp only [cond_false, List.map_cons, List.getD_cons_succ]
      exact ih (by
        rcases List.mem_cons.mp h with h1 | h1
        · exact absurd h1.symm ha
        · exact h1)

theorem zipWith_sub_map_zero (s : List ℚ) :
    ∀ (w : List ℚ), s.length ≤ w.length →
      List.zipWith (fun a b => a - b) s (w.map (· * 0)) = s := by
  induction s with
  | nil => intro w _; rfl
  | cons a t ih =>
    intro w hw
    match w with
    | [] => simp at hw
    | b :: u =>
      rw [List.map_cons, List.zipWith_cons_cons, mul_zero, sub_zero]
      rw [ih u (by simpa using hw)]

theorem getD_map_abs (l : List ℚ) {i : ℕ} (h : i < l.length) :
    (l.map (fun x => |x|)).getD i 0 = |l.getD i 0| := by
  rw [List.getD_eq_getElem?_getD, List.getD_eq_getElem?_getD, List.getElem?_map,
    List.getElem?_eq_getElem h]
  rfl

theorem abs_getD_nonneg (l : List ℚ) (i : ℕ) : 0 ≤ (l.map (fun x => |x|)).getD i 0 :=
  getD_mem_nonneg _ (by
    intro x hx
    obtain ⟨y, _, rfl⟩ := List.mem_map.mp hx
    exact abs_nonneg y) i

/-- `_prox_owl` with an all-zero threshold vector of sufficient length is
the identity (in this exact-arithmetic model; numpy would produce `nan`
at zero entries from `data/np.abs(data)`). -/
theorem prox_owl_zero (data w : List ℚ) (hw : data.length ≤ w.length) :
    OWL._prox_owl data (w.map (· * 0)) = data := by
  unfold OWL._prox_owl
  have hlen : (argsortDesc (data.map (fun x => |x|))).length = data.length := by
    rw [argsortDesc_length, List.length_map]
  have hsortedlen :
      ((argsortDesc (data.map (fun x => |x|))).map
        (fun i => (data.map (fun x => |x|)).getD i 0)).length = data.length := by
    rw [List.length_map, hlen]
  have hzip : List.zipWith (fun a b => a - b)
      ((argsortDesc (data.map (fun x => |x|))).map
        (fun i => (data.map (fun x => |x|)).getD i 0)) (w.map (· * 0)) =
      (argsortDesc (data.map (fun x => |x|))).map
        (fun i => (data.map (fun x => |x|)).getD i 0) :=
    zipWith_sub_map_zero _ _ (by rw [hsortedlen]; exact hw)
  have hsorted : List.Sorted (· ≥ ·)
      ((argsortDesc (data.map (fun x => |x|))).map
        (fun i => (data.map (fun x => |x|)).getD i 0)) := by
    rw [List.Sorted, List.pairwise_map]
    exact argsortDesc_sorted _
  have hnn : ∀ x ∈ (argsortDesc (data.map (fun x => |x|))).map
      (fun i => (data.map (fun x => |x|)).getD i 0), 0 ≤ x := by
    intro x hx
    obtain ⟨i, _, rfl⟩ := List.mem_map.mp hx
    exact abs_getD_nonneg data i
  simp only [hzip, isotonicDec0_fix _ hsorted hnn]
  have hpt : ∀ i ∈ List.range data.length,
      pySign (data.getD i 0) *
        ((argsortDesc (data.map (fun x => |x|))).map
          (fun i => (data.map (fun x => |x|)).getD i 0)).getD
          ((argsortDesc (data.map (fun x => |x|))).findIdx (fun j => j == i)) 0 =
        data.getD i 0 := by
    intro i hi
    have hi2 : i < data.length := List.mem_range.mp hi
    have hmem : i ∈ argsortDesc (data.map (fun x => |x|)) :=
      argsortDesc_mem _ (by rw [List.length_map]; exact hi2)
    rw [unsort_getD _ _ _ hmem, getD_map_abs data hi2, pySign_mul_abs]
  rw [List.map_congr_left hpt, map_range_getD]

/-- If `f` fixes every element of a patch list, `mapOpt f` returns the
list unchanged. -/
theorem mapOpt_id {f : NDA → Option NDA} :
    ∀ (P : List NDA), (∀ p ∈ P, f p = some p) → mapOpt f P = some P := by
  intro P
  induction P with
  | nil => intro _; rfl
  | cons p t ih =>
    intro h
    unfold mapOpt
    rw [h p (List.mem_cons_self p t), ih (fun q hq => h q (List.mem_cons_of_mem p hq))]

/-- At threshold `0`, `_prox_nuclear_norm` is the identity on a patch of
the configured shape, provided SVD recomposition is exact on the patch
matrix. -/
theorem prox_nuclear_id (svd : SvdFn) (ps : List ℕ) (p : NDA)
    (hps : ps ≠ []) (hcols : 0 < ps.getLastD 0) (hsh : p.shape = ps)
    (hlen : p.flat.length = ps.prod)
    (hsvd : matMul
      (colScale (svd (chunk (ps.getLastD 0) p.flat)).1
        (svd (chunk (ps.getLastD 0) p.flat)).2.1)
      (svd (chunk (ps.getLastD 0) p.flat)).2.2 = chunk (ps.getLastD 0) p.flat) :
    NuclearNorm._prox_nuclear_norm svd ps p 0 = some p := by
  have hc : p.shape.getLastD 0 = ps.getLastD 0 := by rw [hsh]
  have hre : reshapeFlat p.flat [ps.dropLast.prod, p.shape.getLastD 0] =
      some ⟨[ps.dropLast.prod, p.shape.getLastD 0], p.flat⟩ := by
    unfold reshapeFlat
    rw [if_pos]
    rw [hc, hlen, List.prod_cons, List.prod_cons, List.prod_nil, mul_one]
    exact (prod_dropLast_getLast ps hps).symm
  have hshrink : ((svd (chunk (p.shape.getLastD 0) p.flat)).2.1).map
      (fun si => si * max (1 - 0 / max eps32 |si|) 0) =
      (svd (chunk (p.shape.getLastD 0) p.flat)).2.1 := by
    have hpt : ∀ si : ℚ, si * max (1 - 0 / max eps32 |si|) 0 = si := by
      intro si
      rw [zero_div, sub_zero]
      rw [max_eq_left (by norm_num : (0 : ℚ) ≤ 1), mul_one]
    exact List.map_id'' hpt _
  unfold NuclearNorm._prox_nuclear_norm
  dsimp only
  rw [hre]
  dsimp only
  rw [hshrink, hc, hsvd]
  unfold matFlat
  rw [chunk_flatten hcols]
  unfold reshapeFlat
  rw [if_pos (by rw [hsh]; exact hlen)]

/-- `NuclearNorm.op` at `extra_factor = 0` on the disjoint extraction
path is the identity, given exact SVD recomposition on each patch and
the extraction/reconstruction round trip of the disjoint case. -/
theorem nuclear_op_extract_id (svd : SvdFn)
    (extract : NDA → List ℕ → ℕ → List NDA)
    (reconNO : List NDA → List ℕ → NDA)
    (reconOV : List ℕ → List NDA → List ℕ → NDA)
    (st : NNState) (data : NDA)
    (hb : data.shape.drop 1 ≠ st.patch_shape) (hov : st.overlapping_factor = 1)
    (hps : st.patch_shape ≠ []) (hcols : 0 < st.patch_shape.getLastD 0)
    (hp : ∀ p ∈ extract (mv0Last data) st.patch_shape st.overlapping_factor,
      p.shape = st.patch_shape ∧ p.flat.length = st.patch_shape.prod ∧
      matMul (colScale (svd (chunk (st.patch_shape.getLastD 0) p.flat)).1
          (svd (chunk (st.patch_shape.getLastD 0) p.flat)).2.1)
        (svd (chunk (st.patch_shape.getLastD 0) p.flat)).2.2 =
        chunk (st.patch_shape.getLastD 0) p.flat)
    (hrt : reconNO (extract (mv0Last data) st.patch_shape st.overlapping_factor)
      (data.shape.drop 1) = data) :
    NuclearNorm.op svd extract reconNO reconOV st data 0 = some data := by
  unfold NuclearNorm.op
  rw [if_neg hb, if_pos hov]
  have hmap : mapOpt
      (fun p => NuclearNorm._prox_nuclear_norm svd st.patch_shape p (st.weights * 0))
      (extract (mv0Last data) st.patch_shape st.overlapping_factor) =
      some (extract (mv0Last data) st.patch_shape st.overlapping_factor) := by
    apply mapOpt_id
    intro p hpmem
    rw [mul_zero]
    exact prox_nuclear_id svd st.patch_shape p hps hcols (hp p hpmem).1
      (hp p hpmem).2.1 (hp p hpmem).2.2
  rw [hmap]
  dsimp only
  rw [hrt]

/-- `NuclearNorm.op` at `extra_factor = 0` on the overlapped extraction
path is the identity, given exact SVD recomposition on each patch and
the overlapped stitch-back round trip. -/
theorem nuclear_op_overlap_id (svd : SvdFn)
    (extract : NDA → List ℕ → ℕ → List NDA)
    (reconNO : List NDA → List ℕ → NDA)
    (reconOV : List ℕ → List NDA → List ℕ → NDA)
    (st : NNState) (data : NDA)
    (hb : data.shape.drop 1 ≠ st.patch_shape) (hov : st.overlapping_factor ≠ 1)
    (hps : st.patch_shape ≠ []) (hcols : 0 < st.patch_shape.getLastD 0)
    (hp : ∀ p ∈ extract (mv0Last data) st.patch_shape st.overlapping_factor,
      p.shape = st.patch_shape ∧ p.flat.length = st.patch_shape.prod ∧
      matMul (colScale (svd (chunk (st.patch_shape.getLastD 0) p.flat)).1
          (svd (chunk (st.patch_shape.getLastD 0) p.flat)).2.1)
        (svd (chunk (st.patch_shape.getLastD 0) p.flat)).2.2 =
        chunk (st.patch_shape.getLastD 0) p.flat)
    (hrt : mvLast0 (reconOV (mv0Last data).shape
      (extract (mv0Last data) st.patch_shape st.overlapping_factor)
      (st.patch_shape.map (fun d => d / st.overlapping_factor))) = data) :
    NuclearNorm.op svd extract reconNO reconOV st data 0 = some data := by
  unfold NuclearNorm.op
  rw [if_neg hb, if_neg hov]
  have hmap : mapOpt
      (fun p => NuclearNorm._prox_nuclear_norm svd st.patch_shape p (st.weights * 0))
      (extract (mv0Last data) st.patch_shape st.overlapping_factor) =
      some (extract (mv0Last data) st.patch_shape st.overlapping_factor) := by
    apply mapOpt_id
    intro p hpmem
    rw [mul_zero]
    exact prox_nuclear_id svd st.patch_shape p hps hcols (hp p hpmem).1
      (hp p hpmem).2.1 (hp p hpmem).2.2
  rw [hmap]
  dsimp only
  rw [hrt]

theorem powerSeq_shift {V : Type} (f : V → V) (N : V → ℚ) (sdiv : V → ℚ → V)
    (x0 : V) (k : ℕ) :
    powerSeq f N sdiv (sdiv (f x0) (N x0)) k = powerSeq f N sdiv x0 (k + 1) := by
  induction k with
  | zero => rfl
  | succ n ih => rw [powerSeq, ih]; rfl

theorem absStop_shift {V : Type} (f : V → V) (N : V → ℚ) (sdiv : V → ℚ → V)
    (x0 : V) (tol : ℚ) (k : ℕ) :
    absStop f N sdiv (sdiv (f x0) (N x0)) tol k = absStop f N sdiv x0 tol (k + 1) := by
  unfold absStop
  rw [powerSeq_shift, powerSeq_shift]

theorem specRadLoop_eq {V : Type} (f : V → V) (N : V → ℚ) (sdiv : V → ℚ → V)
    (tol : ℚ) : ∀ (m : ℕ) (x0 : V),
    specRadLoop f N sdiv tol (m + 1) x0 =
      some (powerSeq f N sdiv x0
        ((((List.range m).find? (absStop f N sdiv x0 tol)).getD m) + 1)) := by
  intro m
  induction m with
  | zero => intro x0; rfl
  | succ n ih =>
    intro x0
    rw [specRadLoop]
    by_cases h0 : |N (sdiv (f x0) (N x0)) - N x0| < tol
    · rw [if_pos h0]
      have hstop : absStop f N sdiv x0 tol 0 = true := decide_eq_true h0
      rw [List.range_succ_eq_map, List.find?_cons, hstop]
      rfl
    · rw [if_neg h0]
      rw [ih (sdiv (f x0) (N x0))]
      have hstop : absStop f N sdiv x0 tol 0 = false := decide_eq_false h0
      have hshift : (absStop f N sdiv x0 tol) ∘ Nat.succ =
          absStop f N sdiv (sdiv (f x0) (N x0)) tol := by
        funext k
        exact (absStop_shift f N sdiv x0 tol k).symm
      rw [List.range_succ_eq_map, List.find?_cons, hstop]
      show some (powerSeq f N sdiv (sdiv (f x0) (N x0)) _) =
        some (powerSeq f N sdiv x0
          ((((List.range n).map Nat.succ).find? (absStop f N sdiv x0 tol)).getD (n + 1) + 1))
      rw [List.find?_map, hshift]
      cases hfind : (List.range n).find? (absStop f N sdiv (sdiv (f x0) (N x0)) tol) with
      | none =>
        simp only [Option.getD_none, Option.map_none']
        rw [powerSeq_shift]
      | some k =>
        simp only [Option.getD_some, Option.map_some']
        rw [powerSeq_shift]

theorem mlBandFold_config (svd : SvdFn)
    (extract : NDA → List ℕ → ℕ → List NDA)
    (reconNO : List NDA → List ℕ → NDA)
    (reconOV : List ℕ → List NDA → List ℕ → NDA) (ov : ℕ) (ef : ℚ) :
    ∀ (trip : List (NDA × (ℚ × List ℕ))) (st : MLState) (acc : Except PyErr (List NDA)),
      ((trip.foldl (mlBandStep svd extract reconNO reconOV ov ef) (st, acc)).1._weights
          = st._weights) ∧
      ((trip.foldl (mlBandStep svd extract reconNO reconOV ov ef) (st, acc)).1._patch_shape
          = st._patch_shape) ∧
      ((trip.foldl (mlBandStep svd extract reconNO reconOV ov ef) (st, acc)).1.overlapping_factor
          = st.overlapping_factor) := by
  intro trip
  induction trip with
  | nil => intro st acc; exact ⟨rfl, rfl, rfl⟩
  | cons x t ih =>
    intro st acc
    obtain ⟨band, wi, psi⟩ := x
    rw [List.foldl_cons]
    cases acc with
    | error e => exact ih st (Except.error e)
    | ok outs =>
      cases hop : NuclearNorm.op svd extract reconNO reconOV ⟨wi, psi, ov⟩ band ef with
      | none =>
        have hstep : mlBandStep svd extract reconNO reconOV ov ef (st, Except.ok outs)
            ⟨band, wi, psi⟩ = ({ st with weights := wi, patch_shape := Sum.inl psi },
              Except.error PyErr.numpyError) := by
          unfold mlBandStep
          dsimp only
          rw [hop]
        rw [hstep]
        exact ih _ _
      | some r =>
        have hstep : mlBandStep svd extract reconNO reconOV ov ef (st, Except.ok outs)
            ⟨band, wi, psi⟩ = ({ st with weights := wi, patch_shape := Sum.inl psi },
              Except.ok (outs ++ [r])) := by
          unfold mlBandStep
          dsimp only
          rw [hop]
        rw [hstep]
        exact ih _ _

theorem mlBandFold_last (svd : SvdFn)
    (extract : NDA → List ℕ → ℕ → List NDA)
    (reconNO : List NDA → List ℕ → NDA)
    (reconOV : List ℕ → List NDA → List ℕ → NDA) (ov : ℕ) (ef : ℚ) :
    ∀ (trip : List (NDA × (ℚ × List ℕ))) (st : MLState)
      (outs : List NDA) (hne : trip ≠ [])
      (_hok : ∀ x ∈ trip,
        NuclearNorm.op svd extract reconNO reconOV ⟨x.2.1, x.2.2, ov⟩ x.1 ef ≠ none),
      ((trip.foldl (mlBandStep svd extract reconNO reconOV ov ef) (st, .ok outs)).1.weights
          = (trip.getLast hne).2.1) ∧
      ((trip.foldl (mlBandStep svd extract reconNO reconOV ov ef) (st, .ok outs)).1.patch_shape
          = Sum.inl (trip.getLast hne).2.2) := by
  intro trip
  induction trip with
  | nil => intro st outs hne _; exact absurd rfl hne
  | cons x t ih =>
    intro st outs hne hok
    obtain ⟨band, wi, psi⟩ := x
    rw [List.foldl_cons]
    cases hop : NuclearNorm.op svd extract reconNO reconOV ⟨wi, psi, ov⟩ band ef with
    | none =>
      exact absurd hop (hok ⟨band, wi, psi⟩ (List.mem_cons_self _ _))
    | some r =>
      have hstep : mlBandStep svd extract reconNO reconOV ov ef (st, .ok outs)
          ⟨band, wi, psi⟩ =
          ({ st with weights := wi, patch_shape := Sum.inl psi }, .ok (outs ++ [r])) := by
        unfold mlBandStep
        dsimp only
        rw [hop]
      rw [hstep]
      cases t with
      | nil => exact ⟨rfl, rfl⟩
      | cons y u =>
        have hne2 : y :: u ≠ [] := List.cons_ne_nil y u
        have := ih { st with weights := wi, patch_shape := Sum.inl psi } (outs ++ [r]) hne2
          (fun z hz => hok z (List.mem_cons_of_mem _ hz))
        rw [List.getLast_cons hne2]
        exact this

theorem mlBandFold_ok (svd : SvdFn)
    (extract : NDA → List ℕ → ℕ → List NDA)
    (reconNO : List NDA → List ℕ → NDA)
    (reconOV : List ℕ → List NDA → List ℕ → NDA) (ov : ℕ) (ef : ℚ) :
    ∀ (trip : List (NDA × (ℚ × List ℕ))) (st : MLState) (outs0 : List NDA)
      (_hid : ∀ x ∈ trip,
        NuclearNorm.op svd extract reconNO reconOV ⟨x.2.1, x.2.2, ov⟩ x.1 ef = some x.1),
      (trip.foldl (mlBandStep svd extract reconNO reconOV ov ef) (st, .ok outs0)).2
        = .ok (outs0 ++ trip.map (fun x => x.1)) := by
  intro trip
  induction trip with
  | nil => intro st outs0 _; simp
  | cons x t ih =>
    intro st outs0 hid
    obtain ⟨band, wi, psi⟩ := x
    rw [List.foldl_cons]
    have hop := hid ⟨band, wi, psi⟩ (List.mem_cons_self _ _)
    dsimp only at hop
    have hstep : mlBandStep svd extract reconNO reconOV ov ef (st, .ok outs0)
        ⟨band, wi, psi⟩ =
        ({ st with weights := wi, patch_shape := Sum.inl psi }, .ok (outs0 ++ [band])) := by
      unfold mlBandStep
      dsimp only
      rw [hop]
    rw [hstep, ih _ _ (fun z hz => hid z (List.mem_cons_of_mem _ hz))]
    simp

theorem mlCostFold_config (svd : SvdFn)
    (extract : NDA → List ℕ → ℕ → List NDA) (ov : ℕ) (ef : ℚ) :
    ∀ (trip : List (NDA × (ℚ × List ℕ))) (st : MLState) (acc : Except PyErr ℚ),
      ((trip.foldl (mlCostStep svd extract ov ef) (st, acc)).1._weights = st._weights) ∧
      ((trip.foldl (mlCostStep svd extract ov ef) (st, acc)).1._patch_shape
          = st._patch_shape) ∧
      ((trip.foldl (mlCostStep svd extract ov ef) (st, acc)).1.overlapping_factor
          = st.overlapping_factor) := by
  intro trip
  induction trip with
  | nil => intro st acc; exact ⟨rfl, rfl, rfl⟩
  | cons x t ih =>
    intro st acc
    obtain ⟨band, wi, psi⟩ := x
    rw [List.foldl_cons]
    cases acc with
    | error e => exact ih st (Except.error e)
    | ok c =>
      cases hop : NuclearNorm.get_cost svd extract ⟨wi, psi, ov⟩ band ef with
      | none =>
        have hstep : mlCostStep svd extract ov ef (st, Except.ok c)
            ⟨band, wi, psi⟩ = ({ st with weights := wi, patch_shape := Sum.inl psi },
              Except.error PyErr.numpyError) := by
          unfold mlCostStep
          dsimp only
          rw [hop]
        rw [hstep]
        exact ih _ _
      | some ci =>
        have hstep : mlCostStep svd extract ov ef (st, Except.ok c)
            ⟨band, wi, psi⟩ = ({ st with weights := wi, patch_shape := Sum.inl psi },
              Except.ok (c + ci)) := by
          unfold mlCostStep
          dsimp only
          rw [hop]
        rw [hstep]
        exact ih _ _

theorem mlCostFold_last (svd : SvdFn)
    (extract : NDA → List ℕ → ℕ → List NDA) (ov : ℕ) (ef : ℚ) :
    ∀ (trip : List (NDA × (ℚ × List ℕ))) (st : MLState) (c0 : ℚ) (hne : trip ≠ [])
      (_hok : ∀ x ∈ trip,
        NuclearNorm.get_cost svd extract ⟨x.2.1, x.2.2, ov⟩ x.1 ef ≠ none),
      ((trip.foldl (mlCostStep svd extract ov ef) (st, .ok c0)).1.weights
          = (trip.getLast hne).2.1) ∧
      ((trip.foldl (mlCostStep svd extract ov ef) (st, .ok c0)).1.patch_shape
          = Sum.inl (trip.getLast hne).2.2) := by
  intro trip
  induction trip with
  | nil => intro st c0 hne _; exact absurd rfl hne
  | cons x t ih =>
    intro st c0 hne hok
    obtain ⟨band, wi, psi⟩ := x
    rw [List.foldl_cons]
    cases hop : NuclearNorm.get_cost svd extract ⟨wi, psi, ov⟩ band ef with
    | none =>
      exact absurd hop (hok ⟨band, wi, psi⟩ (List.mem_cons_self _ _))
    | some ci =>
      have hstep : mlCostStep svd extract ov ef (st, .ok c0) ⟨band, wi, psi⟩ =
          ({ st with weights := wi, patch_shape := Sum.inl psi }, .ok (c0 + ci)) := by
        unfold mlCostStep
        dsimp only
        rw [hop]
      rw [hstep]
      cases t with
      | nil => exact ⟨rfl, rfl⟩
      | cons y u =>
        have hne2 : y :: u ≠ [] := List.cons_ne_nil y u
        have := ih { st with weights := wi, patch_shape := Sum.inl psi } (c0 + ci) hne2
          (fun z hz => hok z (List.mem_cons_of_mem _ hz))
        rw [List.getLast_cons hne2]
        exact this

/-! ## Claim theorems -/

/-- Claim C1 (code bug; theorem for the part the source's formulas state):
`GradBase.get_grad` stores `Mᵗ(M x − y)` in the `grad` field, and the
formula written at line 428 of `Grad2DSynthese_Pmri.get_grad` is the sum
over the leading channel axis of the per-channel contributions
`Mᵗ_l(M_l x − y_l)`.  The `Grad2DSynthese_Pmri` class itself cannot
execute: the module fails to parse (unbalanced parenthesis, line 382) and
its `MX`/`MtX` declare a spurious `smap` parameter, so the single-argument
calls in `get_grad` would raise `TypeError`. -/
theorem claim_C1_get_grad_formula :
    (∀ (V W : Type) [Sub W] (st : GradBaseSt V W) (x : V),
      (GradBase.get_grad st x).grad = st.MtX (st.MX x - st.y)) ∧
    (∀ (ι κ σ : Type) [Fintype σ] (L : ℕ)
      (smap : Fin L → ι → Cq) (mask : κ → Cq)
      (fft : (ι → Cq) → κ → Cq) (ifft : (κ → Cq) → ι → Cq)
      (wop : (ι → Cq) → σ → Cq) (wadj : (σ → Cq) → ι → Cq)
      (y : Fin L → κ → Cq) (x : σ → Cq),
      Grad2DSynthese_Pmri.get_grad smap mask fft ifft wop wadj y x =
        Finset.univ.sum (fun l => pmriChanMt smap mask ifft wop l
          (fun kk => pmriChanM smap mask fft wadj l x kk - y l kk))) := by
  constructor
  · intro V W _ st x
    rfl
  · intro ι κ σ _ L smap mask fft ifft wop wadj y x
    rfl

/-- Claim C2, counterexample: `get_spec_rad` does not stop on the
relative change of the L2 norm.  At this concrete operator
(`MtMX 10 = 105`, `MtMX (21/2) = 21`, one-element vectors with `‖v‖ = |v|`,
`x₀ = 10`, `tolerance = 3/10`, `max_iter = 2`, `coef_mul = 1`), the
relative change after the first pass is `1/20 < 3/10`, so the claimed
algorithm stops with `spec_rad = 21/2`, while the code (which compares
the absolute difference `1/2 ≥ 3/10`) keeps iterating and returns
`spec_rad = 2`. -/
theorem claim_C2_relative_stop_counterexample :
    GradBase.get_spec_rad
      (fun v : ℚ => if v = 10 then 105 else if v = 21/2 then 21 else 0) (fun w : ℚ => w)
      (fun v => |v|) (fun v c => v / c) 10 (3/10) 2 1 ≠
    specRadDescribedRel
      (GradBase.MtMX
        (fun v : ℚ => if v = 10 then 105 else if v = 21/2 then 21 else 0) (fun w : ℚ => w))
      (fun v => |v|) (fun v c => v / c) 10 (3/10) 2 1 := by
  with_unfolding_all decide

/-- Claim C2 (amended): `get_spec_rad(tolerance, max_iter, coef_mul)`
performs power iteration from `get_initial_x`, replacing `x` by
`MtMX(x)/‖x‖`, stopping when the ABSOLUTE difference of the L2 norms of
consecutive iterates falls below `tolerance` or after `max_iter`
iterations, and sets `spec_rad = coef_mul·‖x_final‖`,
`inv_spec_rad = 1/spec_rad`. -/
theorem claim_C2_amended_absolute_stop {V W : Type} (MX : V → W) (MtX : W → V)
    (N : V → ℚ) (sdiv : V → ℚ → V) (x0 : V) (tol : ℚ) (maxIter : ℕ) (coefMul : ℚ) :
    GradBase.get_spec_rad MX MtX N sdiv x0 tol maxIter coefMul =
      specRadDescribedAbs (GradBase.MtMX MX MtX) N sdiv x0 tol maxIter coefMul := by
  cases maxIter with
  | zero => rfl
  | succ m =>
    unfold GradBase.get_spec_rad specRadDescribedAbs specRadDescribed
    rw [specRadLoop_eq]
    rw [if_neg (Nat.succ_ne_zero m)]
    rw [Nat.add_sub_cancel]
    rfl

/-- Claim C4 (code bug): on an input whose trailing shape equals the
configured patch shape, `NuclearNorm.op` does NOT shrink-and-recompose:
`op` first reshapes `moveaxis(data, 0, -1)` to
`(prod(patch_shape), channels)` and `_prox_nuclear_norm` then tries to
reshape that matrix to `(prod(patch_shape[:-1]), channels)`, which fails
(`ValueError`, modelled `none`) whenever the last patch dimension exceeds
one — here a `(2, 2)` patch on a `(1, 2, 2)` array, for every SVD oracle,
extraction routine and `extra_factor`. -/
theorem claim_C4_single_patch_reshape_error (svd : SvdFn)
    (extract : NDA → List ℕ → ℕ → List NDA)
    (reconNO : List NDA → List ℕ → NDA)
    (reconOV : List ℕ → List NDA → List ℕ → NDA) (ef : ℚ) :
    NuclearNorm.op svd extract reconNO reconOV ⟨1/2, [2, 2], 1⟩
      ⟨[1, 2, 2], [1, 2, 3, 4]⟩ ef = none := by
  rfl

/-- Claim C6 (code bug): `k_support_norm.op` cannot compute the described
shrinkage: every call reads `self.lmbda`, which `__init__` never assigns
(it stores `lmbda` into `self.weights`), so the first weight comparison
in `_find_alpha` raises `AttributeError` — here at `k = 2`, `λ = 1`,
`data = [1, 2]`. -/
theorem claim_C6_ksupport_attribute_error :
    k_support_norm.op (k_support_norm.init 2 1) [1, 2] 1 =
      Except.error PyErr.attributeError := by
  with_unfolding_all decide

/-- Claim C8 (code bug): `MultiLevelNuclearNorm.__init__` raises
`ValueError` on lists of different lengths and pairs equal-length lists
per scale, and broadcasts a single patch shape over a weight list — but
the closing `NuclearNorm.__init__(self, weights[0], patch_shape[0], ...)`
subscripts the ORIGINAL `weights` argument, so every non-list (scalar)
`weights` raises `TypeError` at construction instead of broadcasting
(and a single patch-shape tuple contributes only its first component to
the parent field). -/
theorem claim_C8_init_behavior :
    (MultiLevelNuclearNorm.init 4 (MLWeightsArg.list [1, 2])
      (MLPatchArg.list [[2], [2], [2]]) 1 = Except.error PyErr.valueError) ∧
    (MultiLevelNuclearNorm.init 4 (MLWeightsArg.list [1, 2])
      (MLPatchArg.list [[2, 2, 1], [3, 3, 1]]) 1 =
      Except.ok ⟨[1, 2], [[2, 2, 1], [3, 3, 1]], 1, Sum.inl [2, 2, 1], 1⟩) ∧
    (MultiLevelNuclearNorm.init 4 (MLWeightsArg.list [1, 2])
      (MLPatchArg.single [2, 2, 1]) 1 =
      Except.ok ⟨[1, 2], [[2, 2, 1], [2, 2, 1]], 1, Sum.inr 2, 1⟩) ∧
    (MultiLevelNuclearNorm.init 4 (MLWeightsArg.scalar 1)
      (MLPatchArg.list [[2, 2, 1], [3, 3, 1]]) 1 = Except.error PyErr.typeError) ∧
    (MultiLevelNuclearNorm.init 4 (MLWeightsArg.scalar 1)
      (MLPatchArg.single [2, 2, 1]) 1 = Except.error PyErr.typeError) := by
  with_unfolding_all decide

/-- Claim C9 (code bug): with a multi-key forward-model mapping both
constructors abort before choosing an entry, and a single-key mapping
instantiates the key's class on the mapped parameters; but
`Grad2DSynthesis.__init__` executes `raise valueerror(...)` — a
lowercase, undefined name — so it aborts with `NameError` instead of the
intended `ValueError` configuration error (`Grad2DAnalysis` raises
`ValueError` as described). -/
theorem claim_C9_ftcls_dict_behavior :
    (Grad2DAnalysis.resolveFt (P := ℕ) (F := ℕ)
      (FtArg.dict [(fun p => p + 1, 3), (fun p => p, 0)]) =
      Except.error PyErr.valueError) ∧
    (Grad2DSynthesis.resolveFt (P := ℕ) (F := ℕ)
      (FtArg.dict [(fun p => p + 1, 3), (fun p => p, 0)]) =
      Except.error PyErr.nameError) ∧
    (Grad2DAnalysis.resolveFt (P := ℕ) (F := ℕ)
      (FtArg.dict [(fun p => p + 1, 3)]) = Except.ok 4) ∧
    (Grad2DSynthesis.resolveFt (P := ℕ) (F := ℕ)
      (FtArg.dict [(fun p => p + 1, 3)]) = Except.ok 4) := by
  constructor
  · rfl
  constructor
  · rfl
  constructor
  · rfl
  · rfl

/-- Claim C10, counterexample: constructing `OWL` with the unrecognised
mode `"bogus"` and `beta = None` does NOT fail — `__init__` validates the
mode only on the OSCAR path, so construction succeeds and stores the
bogus mode. -/
theorem claim_C10_no_validation_counterexample :
    OWL.init (fun _ _ _ => []) (OWLWeights.vec [1]) none none ("bogus") 1 =
      Except.ok ⟨"bogus", OWLWeights.vec [1], none⟩ := rfl

/-- Claim C10 (amended): an unrecognised OWL mode raises at construction
only when `beta` (OSCAR weights) is supplied together with a data shape
(the raise of a plain string is Python 2's `TypeError`); with
`beta = None` construction succeeds without validating the mode, and the
unknown mode surfaces only when `op` is called (`UnboundLocalError` from
the undefined `output`). -/
theorem claim_C10_amended_mode_validation (osc : ℚ → ℚ → ℕ → List ℚ)
    (alpha : OWLWeights) (b : ℚ) (ds : OWLDataShape) (nC : ℕ) (mode : String)
    (h1 : mode ≠ "all") (h2 : mode ≠ "band_based") (h3 : mode ≠ "coeff_based") :
    (OWL.init osc alpha (some b) (some ds) mode nC = Except.error PyErr.typeError) ∧
    (OWL.init osc alpha none (some ds) mode nC = Except.ok ⟨mode, alpha, none⟩) ∧
    (∀ (data : NDA) (ef : ℚ),
      OWL.op ⟨mode, alpha, none⟩ data ef = Except.error PyErr.unboundLocalError) := by
  refine ⟨?_, rfl, ?_⟩
  · unfold OWL.init
    dsimp only
    rw [if_neg h1, if_neg h2, if_neg h3]
  · intro data ef
    unfold OWL.op
    rw [if_neg h1, if_neg h2, if_neg h3]

theorem claim_C10_amended_witness :
    (("bogus" : String) ≠ "all") ∧
    (OWL.init (fun _ _ _ => []) (OWLWeights.vec [1]) (some 1)
      (some (OWLDataShape.count 2)) ("bogus") 1 = Except.error PyErr.typeError) ∧
    (OWL.init (fun _ _ _ => []) (OWLWeights.vec [1]) none
      (some (OWLDataShape.count 2)) ("bogus") 1 =
      Except.ok ⟨"bogus", OWLWeights.vec [1], none⟩) ∧
    (OWL.op ⟨"bogus", OWLWeights.vec [1], none⟩ ⟨[1], [5]⟩ 1 =
      Except.error PyErr.unboundLocalError) :=
  ⟨by decide,
   (claim_C10_amended_mode_validation (fun _ _ _ => []) (OWLWeights.vec [1]) 1
      (OWLDataShape.count 2) 1 ("bogus") (by decide) (by decide) (by decide)).1,
   (claim_C10_amended_mode_validation (fun _ _ _ => []) (OWLWeights.vec [1]) 1
      (OWLDataShape.count 2) 1 ("bogus") (by decide) (by decide) (by decide)).2.1,
   (claim_C10_amended_mode_validation (fun _ _ _ => []) (OWLWeights.vec [1]) 1
      (OWLDataShape.count 2) 1 ("bogus") (by decide) (by decide) (by decide)).2.2
      ⟨[1], [5]⟩ 1⟩

theorem sortDescQ_sorted (l : List ℚ) : List.Pairwise (· ≥ ·) (sortDescQ l) := by
  have htrans : ∀ a b c : ℚ, (decide (b ≤ a)) = true → (decide (c ≤ b)) = true →
      (decide (c ≤ a)) = true := by
    intro a b c hab hbc
    rw [decide_eq_true_eq] at *
    exact le_trans hbc hab
  have htotal : ∀ a b : ℚ, ((decide (b ≤ a)) || (decide (a ≤ b))) = true := by
    intro a b
    rcases le_total b a with h | h
    · rw [decide_eq_true h, Bool.true_or]
    · rw [decide_eq_true h, Bool.or_true]
  have := List.sorted_mergeSort htrans htotal l
  exact this.imp fun h => of_decide_eq_true h

theorem pairwise_ge_getD (l : List ℚ) (h : List.Pairwise (· ≥ ·) l) (k : ℕ)
    (hk : k + 1 < l.length) : l.getD (k + 1) 0 ≤ l.getD k 0 := by
  rw [List.getD_eq_getElem?_getD, List.getD_eq_getElem?_getD,
    List.getElem?_eq_getElem hk, List.getElem?_eq_getElem (Nat.lt_of_succ_lt hk)]
  simp only [Option.getD_some]
  exact (List.pairwise_iff_getElem.mp h) k (k + 1) (Nat.lt_of_succ_lt hk) hk
    (Nat.lt_succ_self k)

theorem prox_owl_length (data w : List ℚ) :
    (OWL._prox_owl data w).length = data.length := by
  unfold OWL._prox_owl
  dsimp only
  rw [List.length_map, List.length_range]

/-- Claim C5, counterexample: the claimed entrywise bound fails.  For
`data = [10, 9]` and threshold vector `[10, 0]`, the isotonic projection
pools `[0, 9]` into `[9/2, 9/2]`, so the re-sorted output magnitudes are
`[9/2, 9/2]`, while the claimed bound at the first entry is
`max(10 − 10, 0) = 0 < 9/2`. -/
theorem claim_C5_bound_counterexample : ¬ owlClaimC5 [10, 9] [10, 0] := by
  unfold owlClaimC5
  with_unfolding_all decide

/-- Claim C5 (amended): for every input and weight vector, the output of
`_prox_owl`, re-sorted by descending magnitude, is non-increasing, and
every output entry carries the sign of the corresponding input entry
(`out_i = sign(data_i) · m` with `m ≥ 0`); the claimed entrywise bound by
`max(sorted |data| − threshold, 0)` is dropped — the isotonic projection
can average entries above it. -/
theorem claim_C5_amended_shape_sign (data w : List ℚ) :
    (∀ k, k < data.length - 1 →
      (sortDescQ ((OWL._prox_owl data w).map (fun x => |x|))).getD (k + 1) 0 ≤
        (sortDescQ ((OWL._prox_owl data w).map (fun x => |x|))).getD k 0) ∧
    (∀ i, i < data.length →
      (OWL._prox_owl data w).getD i 0 =
        pySign (data.getD i 0) * |(OWL._prox_owl data w).getD i 0|) := by
  constructor
  · intro k hk
    apply pairwise_ge_getD _ (sortDescQ_sorted _)
    unfold sortDescQ
    rw [List.length_mergeSort, List.length_map, prox_owl_length]
    omega
  · intro i hi
    unfold OWL._prox_owl
    dsimp only
    rw [getD_map_range _ hi]
    have hpv : 0 ≤ (isotonicDec0 (List.zipWith (fun a b => a - b)
        ((argsortDesc (data.map (fun x => |x|))).map
          (fun i => (data.map (fun x => |x|)).getD i 0)) w)).getD
        ((argsortDesc (data.map (fun x => |x|))).findIdx (fun j => j == i)) 0 :=
      getD_mem_nonneg _ (isotonicDec0_nonneg _) _
    rcases eq_or_ne (data.getD i 0) 0 with hd | hd
    · rw [hd]
      unfold pySign
      simp
    · have habs : |pySign (data.getD i 0)| = 1 := by
        unfold pySign
        rw [abs_div, abs_abs, div_self (abs_ne_zero.mpr hd)]
      rw [abs_mul, habs, one_mul, abs_of_nonneg hpv]

theorem claim_C5_amended_witness :
    (0 < ([3, -4] : List ℚ).length - 1) ∧
    ((sortDescQ ((OWL._prox_owl [3, -4] [1, 1]).map (fun x => |x|))).getD 1 0 ≤
      (sortDescQ ((OWL._prox_owl [3, -4] [1, 1]).map (fun x => |x|))).getD 0 0) ∧
    ((OWL._prox_owl [3, -4] [1, 1]).getD 0 0 =
      pySign (([3, -4] : List ℚ).getD 0 0) * |(OWL._prox_owl [3, -4] [1, 1]).getD 0 0|) :=
  ⟨by decide,
   (claim_C5_amended_shape_sign [3, -4] [1, 1]).1 0 (by decide),
   (claim_C5_amended_shape_sign [3, -4] [1, 1]).2 0 (by decide)⟩

/-- Claim C3, counterexample: `op(data, 0)` is NOT the identity for every
listed operator.  `k_support_norm.op` fails on every input — all its
methods read `self.lmbda`, never assigned by `__init__` — and ignores
`extra_factor` entirely; and `NuclearNorm.op` on a `(1, 2, 2)` input with
patch shape `(2, 2)` (the single-patch branch of the claim) fails its
internal reshape instead of returning the data. -/
theorem claim_C3_zero_identity_counterexample :
    ¬ (k_support_norm.op (k_support_norm.init 2 1) [1, 2] 0 = Except.ok [1, 2]) ∧
    ¬ (NuclearNorm.op (fun _ => ([[1]], [1], [[1]])) (fun _ _ _ => [])
        (fun _ _ => ⟨[], []⟩) (fun _ _ _ => ⟨[], []⟩) ⟨1/2, [2, 2], 1⟩
        ⟨[1, 2, 2], [1, 2, 3, 4]⟩ 0 = some ⟨[1, 2, 2], [1, 2, 3, 4]⟩) := by
  constructor
  · with_unfolding_all decide
  · with_unfolding_all decide

/-- Claim C3 (amended): `op(data, extra_factor=0)` returns the input
unchanged for GroupLasso, SparseGroupLasso, OWL (`all` mode, 1-d data,
threshold vector at least as long as the data; in exact arithmetic), and
for NuclearNorm and MultiLevelNuclearNorm along the patch-extraction
paths, given exact SVD recomposition on each patch and the
extraction/reconstruction round trip.  Excluded, as the counterexample
forces: `k_support_norm.op` (ignores `extra_factor` and raises
`AttributeError` on every call) and NuclearNorm's single-patch branch
(fails its internal reshape). -/
theorem claim_C3_amended_zero_identity :
    (∀ (w : ℚ) (g : ℕ → ℚ) (data : List (List ℚ)),
      GroupLasso.op w g data 0 = data) ∧
    (∀ (w1 w2 : ℚ) (g : ℕ → ℚ) (data : List (List ℚ)),
      SparseGroupLasso.op w1 w2 g data 0 = data) ∧
    (∀ (w flat : List ℚ), flat.length ≤ w.length →
      OWL.op ⟨"all", OWLWeights.vec w, none⟩ ⟨[flat.length], flat⟩ 0 =
        Except.ok ⟨[flat.length], flat⟩) ∧
    (∀ (svd : SvdFn) (extract : NDA → List ℕ → ℕ → List NDA)
      (reconNO : List NDA → List ℕ → NDA)
      (reconOV : List ℕ → List NDA → List ℕ → NDA) (st : NNState) (data : NDA),
      data.shape.drop 1 ≠ st.patch_shape → st.overlapping_factor = 1 →
      st.patch_shape ≠ [] → 0 < st.patch_shape.getLastD 0 →
      (∀ p ∈ extract (mv0Last data) st.patch_shape st.overlapping_factor,
        p.shape = st.patch_shape ∧ p.flat.length = st.patch_shape.prod ∧
        matMul (colScale (svd (chunk (st.patch_shape.getLastD 0) p.flat)).1
            (svd (chunk (st.patch_shape.getLastD 0) p.flat)).2.1)
          (svd (chunk (st.patch_shape.getLastD 0) p.flat)).2.2 =
          chunk (st.patch_shape.getLastD 0) p.flat) →
      reconNO (extract (mv0Last data) st.patch_shape st.overlapping_factor)
        (data.shape.drop 1) = data →
      NuclearNorm.op svd extract reconNO reconOV st data 0 = some data) ∧
    (∀ (svd : SvdFn) (extract : NDA → List ℕ → ℕ → List NDA)
      (reconNO : List NDA → List ℕ → NDA)
      (reconOV : List ℕ → List NDA → List ℕ → NDA) (st : NNState) (data : NDA),
      data.shape.drop 1 ≠ st.patch_shape → st.overlapping_factor ≠ 1 →
      st.patch_shape ≠ [] → 0 < st.patch_shape.getLastD 0 →
      (∀ p ∈ extract (mv0Last data) st.patch_shape st.overlapping_factor,
        p.shape = st.patch_shape ∧ p.flat.length = st.patch_shape.prod ∧
        matMul (colScale (svd (chunk (st.patch_shape.getLastD 0) p.flat)).1
            (svd (chunk (st.patch_shape.getLastD 0) p.flat)).2.1)
          (svd (chunk (st.patch_shape.getLastD 0) p.flat)).2.2 =
          chunk (st.patch_shape.getLastD 0) p.flat) →
      mvLast0 (reconOV (mv0Last data).shape
        (extract (mv0Last data) st.patch_shape st.overlapping_factor)
        (st.patch_shape.map (fun d => d / st.overlapping_factor))) = data →
      NuclearNorm.op svd extract reconNO reconOV st data 0 = some data) ∧
    (∀ (σ μ : Type) (svd : SvdFn) (extract : NDA → List ℕ → ℕ → List NDA)
      (reconNO : List NDA → List ℕ → NDA)
      (reconOV : List ℕ → List NDA → List ℕ → NDA) (lop : MLLinear σ μ)
      (st : MLState) (wav : NDA),
      (lop.reshape_coeff_channel wav).length ≤ st._weights.length →
      (lop.reshape_coeff_channel wav).length ≤ st._patch_shape.length →
      (∀ x ∈ (lop.reshape_coeff_channel wav).zip (st._weights.zip st._patch_shape),
        NuclearNorm.op svd extract reconNO reconOV
          ⟨x.2.1, x.2.2, st.overlapping_factor⟩ x.1 0 = some x.1) →
      (⟨[((lop.reshape_channel_coeff (lop.reshape_coeff_channel wav)).map
            (fun c => (lop.flatten c).1)).length,
          (((lop.reshape_channel_coeff (lop.reshape_coeff_channel wav)).map
            (fun c => (lop.flatten c).1)).headD []).length],
        ((lop.reshape_channel_coeff (lop.reshape_coeff_channel wav)).map
          (fun c => (lop.flatten c).1)).flatten⟩ : NDA) = wav →
      (MultiLevelNuclearNorm.op svd extract reconNO reconOV lop st wav 0).2 =
        Except.ok wav) := by
  refine ⟨?_, ?_, ?_, ?_, ?_, ?_⟩
  · intro w g data
    unfold GroupLasso.op
    have hf : ∀ (j : ℕ) (x : ℚ),
        x * max 0 (1 - w * 0 / max (g j) eps32) = x := by
      intro j x
      rw [mul_zero, zero_div, sub_zero, max_eq_right zero_le_one, mul_one]
    calc data.map (mapIdxFrom
          (fun j x => x * max 0 (1 - w * 0 / max (g j) eps32)) 0)
        = data.map (fun row => row) := by
          apply List.map_congr_left
          intro row _
          exact mapIdxFrom_id _ hf 0 row
      _ = data := List.map_id' data
  · intro w1 w2 g data
    unfold SparseGroupLasso.op
    have hst : SparseThreshold.op w1 data 0 = data := by
      unfold SparseThreshold.op
      rw [mul_zero]
      calc data.map (fun row => row.map (softThresh 0))
          = data.map (fun row => row) := by
            apply List.map_congr_left
            intro row _
            exact List.map_id'' softThresh_zero row
        _ = data := List.map_id' data
    rw [hst]
    unfold GroupLasso.op
    have hf : ∀ (j : ℕ) (x : ℚ),
        x * max 0 (1 - w2 * 0 / max (g j) eps32) = x := by
      intro j x
      rw [mul_zero, zero_div, sub_zero, max_eq_right zero_le_one, mul_one]
    calc data.map (mapIdxFrom
          (fun j x => x * max 0 (1 - w2 * 0 / max (g j) eps32)) 0)
        = data.map (fun row => row) := by
          apply List.map_congr_left
          intro row _
          exact mapIdxFrom_id _ hf 0 row
      _ = data := List.map_id' data
  · intro w flat hw
    unfold OWL.op
    rw [if_pos rfl]
    show Except.ok (⟨[flat.length], OWL._prox_owl flat (owlThreshold (OWLWeights.vec w) 0 flat.length)⟩ : NDA) = _
    unfold owlThreshold
    rw [prox_owl_zero flat w hw]
  · intro svd extract reconNO reconOV st data hb hov hps hcols hp hrt
    exact nuclear_op_extract_id svd extract reconNO reconOV st data hb hov hps hcols hp hrt
  · intro svd extract reconNO reconOV st data hb hov hps hcols hp hrt
    exact nuclear_op_overlap_id svd extract reconNO reconOV st data hb hov hps hcols hp hrt
  · intro σ μ svd extract reconNO reconOV lop st wav hlen1 hlen2 hid hasm
    unfold MultiLevelNuclearNorm.op
    dsimp only
    have hfold := mlBandFold_ok svd extract reconNO reconOV st.overlapping_factor 0
      ((lop.reshape_coeff_channel wav).zip (st._weights.zip st._patch_shape)) st [] hid
    have hfst : ((lop.reshape_coeff_channel wav).zip
        (st._weights.zip st._patch_shape)).map (fun x => x.1) =
        lop.reshape_coeff_channel wav := by
      apply List.map_fst_zip
      rw [List.length_zip]
      exact le_min hlen1 hlen2
    rw [hfold]
    dsimp only
    rw [List.nil_append, hfst, hasm]

theorem claim_C3_amended_zero_identity_witness :
    (GroupLasso.op 2 (fun _ => 3) [[1, 2], [3, 4]] 0 = [[1, 2], [3, 4]]) ∧
    (SparseGroupLasso.op 1 2 (fun _ => 3) [[1, -2]] 0 = [[1, -2]]) ∧
    (OWL.op ⟨"all", OWLWeights.vec [5], none⟩ ⟨[1], [7]⟩ 0 =
      Except.ok ⟨[1], [7]⟩) ∧
    (NuclearNorm.op (fun _ => ([[1]], [9], [[1]])) (fun _ _ _ => [⟨[1, 1, 1], [9]⟩])
      (fun _ _ => ⟨[1, 2, 2], [1, 2, 3, 4]⟩) (fun _ _ _ => ⟨[], []⟩)
      ⟨5, [1, 1, 1], 1⟩ ⟨[1, 2, 2], [1, 2, 3, 4]⟩ 0 =
      some ⟨[1, 2, 2], [1, 2, 3, 4]⟩) ∧
    (NuclearNorm.op (fun _ => ([[1]], [9], [[1]])) (fun _ _ _ => [⟨[1, 1, 1], [9]⟩])
      (fun _ _ => ⟨[], []⟩) (fun _ _ _ => mv0Last ⟨[1, 2, 2], [1, 2, 3, 4]⟩)
      ⟨5, [1, 1, 1], 2⟩ ⟨[1, 2, 2], [1, 2, 3, 4]⟩ 0 =
      some ⟨[1, 2, 2], [1, 2, 3, 4]⟩) ∧
    ((MultiLevelNuclearNorm.op (σ := NDA) (μ := ℕ) (fun _ => ([[1]], [6], [[1]]))
      (fun _ _ _ => [⟨[1, 1, 1], [6]⟩]) (fun _ _ => ⟨[1, 1, 1], [6]⟩)
      (fun _ _ _ => ⟨[], []⟩)
      ⟨fun _ => [⟨[1, 1, 1], [6]⟩], fun bs => bs, fun b => (b.flat, 0)⟩
      ⟨[3], [[1, 1, 1]], 3, Sum.inl [1, 1, 1], 1⟩ ⟨[1, 1], [6]⟩ 0).2 =
      Except.ok ⟨[1, 1], [6]⟩) := by
  refine ⟨claim_C3_amended_zero_identity.1 2 (fun _ => 3) [[1, 2], [3, 4]],
    claim_C3_amended_zero_identity.2.1 1 2 (fun _ => 3) [[1, -2]],
    claim_C3_amended_zero_identity.2.2.1 [5] [7] (by decide),
    claim_C3_amended_zero_identity.2.2.2.1 _ _ _ _ _ _ (by decide) rfl (by decide)
      (by decide) (by with_unfolding_all decide) (by with_unfolding_all decide),
    claim_C3_amended_zero_identity.2.2.2.2.1 _ _ _ _ _ _ (by decide) (by decide)
      (by decide) (by decide) (by with_unfolding_all decide)
      (by with_unfolding_all decide),
    claim_C3_amended_zero_identity.2.2.2.2.2 NDA ℕ _ _ _ _ _ _ _ (by decide)
      (by decide) (by with_unfolding_all decide) (by with_unfolding_all decide)⟩

/-- Claim C7, counterexample: `MultiLevelNuclearNorm` does NOT leave its
configuration fields at their construction values.  Constructed with the
per-scale lists `weights = [1, 2]`, the parent field `weights` is `1`;
after one `op` call over two bands, the per-band loop's assignment
`self.weights = weights` leaves it at the LAST scale's value `2`. -/
theorem claim_C7_mutation_counterexample :
    (MultiLevelNuclearNorm.init 0 (MLWeightsArg.list [1, 2])
        (MLPatchArg.list [[1, 1, 1], [1, 1, 1]]) 1 =
      Except.ok ⟨[1, 2], [[1, 1, 1], [1, 1, 1]], 1, Sum.inl [1, 1, 1], 1⟩) ∧
    ((MultiLevelNuclearNorm.op (σ := NDA) (μ := ℕ)
        (fun _ => ([[1]], [6], [[1]]))
        (fun _ _ _ => [⟨[1, 1, 1], [6]⟩])
        (fun _ _ => ⟨[1, 1, 1], [6]⟩)
        (fun _ _ _ => ⟨[], []⟩)
        ⟨fun _ => [⟨[1, 1, 1], [6]⟩, ⟨[1, 1, 1], [6]⟩], fun bs => bs,
          fun b => (b.flat, 0)⟩
        ⟨[1, 2], [[1, 1, 1], [1, 1, 1]], 1, Sum.inl [1, 1, 1], 1⟩
        ⟨[1, 1], [6]⟩ 0).1.weights = 2) ∧
    ((1 : ℚ) ≠ 2) := by
  refine ⟨rfl, ?_, by norm_num⟩
  with_unfolding_all decide

/-- Claim C7 (amended): the non-multi-level proximity operators' `op` and
`get_cost` bodies assign no attributes (they are pure functions in this
embedding), but `MultiLevelNuclearNorm.op` and `.get_cost` overwrite the
parent fields `weights` and `patch_shape` at every scale: after a
successful call they hold the LAST zipped (weight, patch-shape) pair, not
the construction values; the per-scale lists `_weights`/`_patch_shape`
(and `overlapping_factor`) are preserved. -/
theorem claim_C7_amended_multilevel_state (σ μ : Type) (svd : SvdFn)
    (extract : NDA → List ℕ → ℕ → List NDA)
    (reconNO : List NDA → List ℕ → NDA)
    (reconOV : List ℕ → List NDA → List ℕ → NDA) (lop : MLLinear σ μ)
    (st : MLState) (wav : NDA) (ef : ℚ)
    (trip : List (NDA × (ℚ × List ℕ)))
    (htrip : trip =
      (lop.reshape_coeff_channel wav).zip (st._weights.zip st._patch_shape))
    (hne : trip ≠ [])
    (hok : ∀ x ∈ trip, NuclearNorm.op svd extract reconNO reconOV
      ⟨x.2.1, x.2.2, st.overlapping_factor⟩ x.1 ef ≠ none)
    (hokc : ∀ x ∈ trip, NuclearNorm.get_cost svd extract
      ⟨x.2.1, x.2.2, st.overlapping_factor⟩ x.1 ef ≠ none) :
    ((MultiLevelNuclearNorm.op svd extract reconNO reconOV lop st wav ef).1._weights
        = st._weights) ∧
    ((MultiLevelNuclearNorm.op svd extract reconNO reconOV lop st wav ef).1._patch_shape
        = st._patch_shape) ∧
    ((MultiLevelNuclearNorm.op svd extract reconNO reconOV lop st wav ef).1.weights
        = (trip.getLast hne).2.1) ∧
    ((MultiLevelNuclearNorm.op svd extract reconNO reconOV lop st wav ef).1.patch_shape
        = Sum.inl (trip.getLast hne).2.2) ∧
    ((MultiLevelNuclearNorm.get_cost svd extract lop st wav ef).1._weights
        = st._weights) ∧
    ((MultiLevelNuclearNorm.get_cost svd extract lop st wav ef).1._patch_shape
        = st._patch_shape) ∧
    ((MultiLevelNuclearNorm.get_cost svd extract lop st wav ef).1.weights
        = (trip.getLast hne).2.1) ∧
    ((MultiLevelNuclearNorm.get_cost svd extract lop st wav ef).1.patch_shape
        = Sum.inl (trip.getLast hne).2.2) := by
  have hop1 : (MultiLevelNuclearNorm.op svd extract reconNO reconOV lop st wav ef).1 =
      (List.foldl (mlBandStep svd extract reconNO reconOV st.overlapping_factor ef)
        (st, Except.ok [])
        ((lop.reshape_coeff_channel wav).zip (st._weights.zip st._patch_shape))).1 := by
    unfold MultiLevelNuclearNorm.op
    dsimp only
    cases (List.foldl (mlBandStep svd extract reconNO reconOV st.overlapping_factor ef)
        (st, Except.ok [])
        ((lop.reshape_coeff_channel wav).zip (st._weights.zip st._patch_shape))).2 with
    | error e => rfl
    | ok outs => rfl
  have hc1 : (MultiLevelNuclearNorm.get_cost svd extract lop st wav ef).1 =
      (List.foldl (mlCostStep svd extract st.overlapping_factor ef) (st, Except.ok 0)
        ((lop.reshape_coeff_channel wav).zip (st._weights.zip st._patch_shape))).1 := by
    rfl
  have hcfgB := mlBandFold_config svd extract reconNO reconOV st.overlapping_factor ef
    ((lop.reshape_coeff_channel wav).zip (st._weights.zip st._patch_shape)) st
    (Except.ok [])
  have hcfgC := mlCostFold_config svd extract st.overlapping_factor ef
    ((lop.reshape_coeff_channel wav).zip (st._weights.zip st._patch_shape)) st
    (Except.ok 0)
  subst htrip
  have hlastB := mlBandFold_last svd extract reconNO reconOV st.overlapping_factor ef
    ((lop.reshape_coeff_channel wav).zip (st._weights.zip st._patch_shape)) st [] hne hok
  have hlastC := mlCostFold_last svd extract st.overlapping_factor ef
    ((lop.reshape_coeff_channel wav).zip (st._weights.zip st._patch_shape)) st 0 hne hokc
  rw [hop1, hc1]
  exact ⟨hcfgB.1, hcfgB.2.1, hlastB.1, hlastB.2, hcfgC.1, hcfgC.2.1, hlastC.1, hlastC.2⟩

theorem claim_C7_amended_multilevel_state_witness :
    ((MultiLevelNuclearNorm.op (σ := NDA) (μ := ℕ) (fun _ => ([[1]], [9], [[1]]))
        (fun _ _ _ => [⟨[1, 1, 1], [9]⟩]) (fun _ _ => ⟨[1, 1, 1], [9]⟩)
        (fun _ _ _ => ⟨[], []⟩)
        ⟨fun _ => [⟨[1, 1, 1], [9]⟩], fun bs => bs, fun b => (b.flat, 0)⟩
        ⟨[3], [[1, 1, 1]], 3, Sum.inl [1, 1, 1], 1⟩ ⟨[1, 1], [9]⟩ 1).1._weights
      = [3]) ∧
    ((MultiLevelNuclearNorm.op (σ := NDA) (μ := ℕ) (fun _ => ([[1]], [9], [[1]]))
        (fun _ _ _ => [⟨[1, 1, 1], [9]⟩]) (fun _ _ => ⟨[1, 1, 1], [9]⟩)
        (fun _ _ _ => ⟨[], []⟩)
        ⟨fun _ => [⟨[1, 1, 1], [9]⟩], fun bs => bs, fun b => (b.flat, 0)⟩
        ⟨[3], [[1, 1, 1]], 3, Sum.inl [1, 1, 1], 1⟩ ⟨[1, 1], [9]⟩ 1).1.weights = 3) ∧
    ((MultiLevelNuclearNorm.get_cost (σ := NDA) (μ := ℕ) (fun _ => ([[1]], [9], [[1]]))
        (fun _ _ _ => [⟨[1, 1, 1], [9]⟩])
        ⟨fun _ => [⟨[1, 1, 1], [9]⟩], fun bs => bs, fun b => (b.flat, 0)⟩
        ⟨[3], [[1, 1, 1]], 3, Sum.inl [1, 1, 1], 1⟩ ⟨[1, 1], [9]⟩ 1).1.weights = 3) := by
  have h := claim_C7_amended_multilevel_state NDA ℕ (fun _ => ([[1]], [9], [[1]]))
    (fun _ _ _ => [⟨[1, 1, 1], [9]⟩]) (fun _ _ => ⟨[1, 1, 1], [9]⟩)
    (fun _ _ _ => ⟨[], []⟩)
    ⟨fun _ => [⟨[1, 1, 1], [9]⟩], fun bs => bs, fun b => (b.flat, 0)⟩
    ⟨[3], [[1, 1, 1]], 3, Sum.inl [1, 1, 1], 1⟩ ⟨[1, 1], [9]⟩ 1
    [(⟨[1, 1, 1], [9]⟩, 3, [1, 1, 1])] rfl (by decide)
    (by with_unfolding_all decide) (by with_unfolding_all decide)
  exact ⟨h.1, h.2.2.1, h.2.2.2.2.2.2.1⟩
